import Mathlib

set_option maxHeartbeats 1000000
set_option autoImplicit false

/-!
Verification of the HRAgent HTTP gateway (an Azure Functions app exposing a
Workday HR backend).  The Python sources `src/function_app.py` and
`src/workday/client.py` are shallowly embedded below: decoded JSON values
become the inductive type `JE`, Python exceptions become the explicit error
type `PyErr` threaded through `Except`, the mutable per-instance cache of
`WorkdayClient` becomes explicit state passing of `ClientSt`, and the HTTP
calls issued by `WorkdayClient._request` become fields of a `Backend` record
(each field is the outcome of the corresponding request) together with an
explicit call log.  Python floats are modelled as exact decimal numbers
(`Dec`); binary rounding, `inf`/`nan` literals and numeric-underscore
syntax are outside the scope of the claims checked here.
-/

namespace HRAgent

/-- Exact decimal number `m * 10 ^ (-(e : Int))`, the model used for Python
floats in this development (the claims only exercise decimal arithmetic that
is exact in both models). -/
structure Dec where
  m : Int
  e : Nat
deriving DecidableEq, Repr

/-- Addition of decimals by rescaling to the larger exponent; models float
addition exactly on the decimal values reachable in the claims. -/
def Dec.add (a b : Dec) : Dec :=
  let ee := max a.e b.e
  ⟨a.m * (10 : Int) ^ (ee - a.e) + b.m * (10 : Int) ^ (ee - b.e), ee⟩

/-- A decoded JSON value (the result of `response.json()` / `req.get_json()`);
`null` doubles as Python `None`. -/
inductive JE where
  | null : JE
  | bool : Bool → JE
  | num : Dec → JE
  | str : String → JE
  | arr : List JE → JE
  | obj : List (String × JE) → JE

/-- First-match association lookup, the model of Python `dict` access (JSON
object keys are unique in practice). -/
def lookupKey : List (String × JE) → String → Option JE
  | [], _ => none
  | (k, v) :: rest, key => if k = key then some v else lookupKey rest key

/-- `isinstance(payload, dict)`. -/
def JE.isObj : JE → Bool
  | .obj _ => true
  | _ => false

/-- Python truthiness of a decoded JSON value. -/
def JE.truthy : JE → Bool
  | .null => false
  | .bool b => b
  | .num d => decide (d.m ≠ 0)
  | .str s => decide (s ≠ "")
  | .arr l => !l.isEmpty
  | .obj l => !l.isEmpty

/-- `workday.client.WorkdayError`: message, optional HTTP status code and the
decoded payload (`null` models the default `payload=None`). -/
structure WorkdayErr where
  message : String
  status_code : Option Nat
  payload : JE

/-- Python exceptions distinguished by the handler in
`function_app._handle_request`: `WorkdayError` (caught first), `ValueError`
(caught second) and everything else (caught by the bare `except Exception`). -/
inductive PyErr where
  | valueError : String → PyErr
  | typeError : PyErr
  | attributeError : PyErr
  | indexError : PyErr
  | keyError : PyErr
  | workday : WorkdayErr → PyErr

/-- `x.get(k)` on a decoded JSON value: `AttributeError` unless `x` is a
dict, `None` when the key is absent. -/
def pyGet (j : JE) (k : String) : Except PyErr JE :=
  match j with
  | .obj kvs => .ok ((lookupKey kvs k).getD .null)
  | _ => .error .attributeError

/-- `x.get(k, d)` on a decoded JSON value. -/
def pyGetD (j : JE) (k : String) (d : JE) : Except PyErr JE :=
  match j with
  | .obj kvs => .ok ((lookupKey kvs k).getD d)
  | _ => .error .attributeError

/-- Iteration (`for x in j`): lists yield elements, strings yield one-character
strings, dicts yield their keys, everything else raises `TypeError`. -/
def pyIter : JE → Except PyErr (List JE)
  | .arr l => .ok l
  | .str s => .ok (s.data.map (fun c => .str ⟨[c]⟩))
  | .obj kvs => .ok (kvs.map (fun kv => .str kv.1))
  | _ => .error .typeError

/-- `j[0]`: first element of a list, first character of a string, `KeyError`
on a dict, `IndexError` when empty, `TypeError` otherwise. -/
def pyIndex0 : JE → Except PyErr JE
  | .arr [] => .error .indexError
  | .arr (x :: _) => .ok x
  | .str s =>
    match s.data with
    | [] => .error .indexError
    | c :: _ => .ok (.str ⟨[c]⟩)
  | .obj _ => .error .keyError
  | _ => .error .typeError

/-- Python `a or b` over decoded values (short-circuiting on truthiness). -/
def pyOrE (a : Except PyErr JE) (b : Unit → Except PyErr JE) : Except PyErr JE :=
  match a with
  | .error e => .error e
  | .ok x => if x.truthy then .ok x else b ()

/-- Decimal digit character. -/
def digitChar (n : Nat) : Char := Char.ofNat (48 + n)

/-- Decimal digit string of a natural number (fuel-based so that it is
kernel-computable; the fuel `n + 1` always suffices). -/
def natDigitsGo : Nat → Nat → List Char
  | 0, _ => []
  | fuel + 1, n =>
    if n < 10 then [digitChar n]
    else natDigitsGo fuel (n / 10) ++ [digitChar (n % 10)]

/-- Decimal string of a natural number, the model of Python `str` on a
non-negative int. -/
def natStr (n : Nat) : String := ⟨natDigitsGo (n + 1) n⟩

/-- Decimal string of an integer. -/
def intStr (i : Int) : String :=
  if i < 0 then "-" ++ natStr i.natAbs else natStr i.natAbs

/-- `natStr` left-padded with zeros to width `w`. -/
def padNat (w n : Nat) : String :=
  ⟨List.replicate (w - (natStr n).length) '0'⟩ ++ natStr n

/-- Decimal rendering of a `Dec`, the model of Python `str` on the numbers
reachable here (`str(4) = "4"`, `str(4.0) = "4.0"`). -/
def decStr (d : Dec) : String :=
  if d.e = 0 then intStr d.m
  else (if d.m < 0 then "-" else "") ++
    natStr (d.m.natAbs / 10 ^ d.e) ++ "." ++ padNat d.e (d.m.natAbs % 10 ^ d.e)

/-- Python `str()` of a decoded JSON value.  Containers are rendered with an
abbreviated bracket form: the development only relies on `str` of scalars and
on the fact that the rendering of a container is non-empty, which holds for
the real `repr`-based rendering as well. -/
def pyStr : JE → String
  | .null => "None"
  | .bool true => "True"
  | .bool false => "False"
  | .num d => decStr d
  | .str s => s
  | .arr _ => "[...]"
  | .obj _ => "\x7b...\x7d"

end HRAgent

namespace HRAgent

/-- ASCII lower-casing of one character, the model of Python `str.lower` on
the ASCII inputs exercised here. -/
def lowerChar (c : Char) : Char :=
  if c.isUpper then Char.ofNat (c.toNat + 32) else c

/-- Python `s.lower()` (ASCII). -/
def pyLowerStr (s : String) : String := ⟨s.data.map lowerChar⟩

/-- Whether character list `p` is an initial segment of `s`
(Python `s.startswith(p)` at the character level). -/
def listStarts : List Char → List Char → Bool
  | _, [] => true
  | [], _ :: _ => false
  | a :: as, b :: bs => a == b && listStarts as bs

/-- Python `s.startswith(p)`. -/
def strStarts (s p : String) : Bool := listStarts s.data p.data

/-- Python `s.strip()` (whitespace on both ends). -/
def pyStrip (s : String) : String :=
  ⟨((s.data.dropWhile (fun c => c.isWhitespace)).reverse.dropWhile
      (fun c => c.isWhitespace)).reverse⟩

/-- Python `s[n:]` for non-negative `n` (drop `n` characters). -/
def strDropChars (s : String) (n : Nat) : String := ⟨s.data.drop n⟩

/-- Split a character list on a separator (model of `str.split` with a
one-character separator; always returns at least one piece). -/
def splitOnChar (sep : Char) : List Char → List (List Char)
  | [] => [[]]
  | c :: cs =>
    let rest := splitOnChar sep cs
    if c == sep then [] :: rest
    else
      match rest with
      | [] => [[c]]
      | r :: rs => (c :: r) :: rs

/-- Numeric value of a decimal digit string. -/
def digitsVal (ds : List Char) : Nat := ds.foldl (fun a c => a * 10 + (c.toNat - 48)) 0

/-- All characters are decimal digits. -/
def allDigits (ds : List Char) : Bool := ds.all (fun c => c.isDigit)

/-- Split a character list at the first `e`/`E` (exponent marker of a float
literal); returns the mantissa part and, when a marker is present, the
exponent part. -/
def splitAtExp : List Char → List Char × Option (List Char)
  | [] => ([], none)
  | c :: cs =>
    if c == 'e' || c == 'E' then ([], some cs)
    else
      let (m, ex) := splitAtExp cs
      (c :: m, ex)

/-- Parse the mantissa of a Python float literal: digits with an optional
decimal point, at least one digit overall. -/
def parseMantissa (cs : List Char) : Option Dec :=
  match splitOnChar '.' cs with
  | [ip] => if ip ≠ [] ∧ allDigits ip then some ⟨digitsVal ip, 0⟩ else none
  | [ip, fp] =>
    if (ip ≠ [] ∨ fp ≠ []) ∧ allDigits ip ∧ allDigits fp then
      some ⟨digitsVal (ip ++ fp), fp.length⟩
    else none
  | _ => none

/-- Parse the optional exponent part of a Python float literal. -/
def parseExpPart : Option (List Char) → Option Int
  | none => some 0
  | some ('+' :: ds) => if ds ≠ [] ∧ allDigits ds then some (digitsVal ds) else none
  | some ('-' :: ds) => if ds ≠ [] ∧ allDigits ds then some (-(digitsVal ds : Int)) else none
  | some ds => if ds ≠ [] ∧ allDigits ds then some (digitsVal ds) else none

/-- Apply a decimal exponent to a parsed mantissa. -/
def applyExp (d : Dec) (k : Int) : Dec :=
  if 0 ≤ k then ⟨d.m * (10 : Int) ^ k.toNat, d.e⟩ else ⟨d.m, d.e + (-k).toNat⟩

/-- Unsigned Python float literal. -/
def parseUnsignedFloat (cs : List Char) : Option Dec :=
  let (mant, ex) := splitAtExp cs
  match parseMantissa mant, parseExpPart ex with
  | some d, some k => some (applyExp d k)
  | _, _ => none

/-- Signed Python float literal. -/
def parseSignedFloat : List Char → Option Dec
  | '+' :: rest => parseUnsignedFloat rest
  | '-' :: rest => (parseUnsignedFloat rest).map (fun d => ⟨-d.m, d.e⟩)
  | cs => parseUnsignedFloat cs

/-- Python `float(s)` on a string: strip whitespace, then a signed decimal
literal with optional fraction and exponent (`inf`/`nan` and underscore
separators are not modelled; the claims never reach them). -/
def parsePyFloat (s : String) : Option Dec := parseSignedFloat (pyStrip s).data

/-- Python `float(x)` on a decoded JSON value: numbers and booleans convert,
strings are parsed (raising `ValueError` on failure), everything else raises
`TypeError`. -/
def pyFloatOfJE : JE → Except PyErr Dec
  | .num d => .ok d
  | .bool true => .ok ⟨1, 0⟩
  | .bool false => .ok ⟨0, 0⟩
  | .str s =>
    match parsePyFloat s with
    | some d => .ok d
    | none => .error (.valueError ("could not convert string to float: \x27" ++ s ++ "\x27"))
  | _ => .error .typeError

end HRAgent

namespace HRAgent

/-- Gregorian leap-year predicate (as implemented by Python `datetime.date`). -/
def isLeap (y : Nat) : Bool := decide ((y % 4 = 0 ∧ ¬ y % 100 = 0) ∨ y % 400 = 0)

/-- Number of days in a month of a (leap or non-leap) year; `0` for an
out-of-range month index. -/
def daysInMonth (leap : Bool) : Nat → Nat
  | 1 => 31
  | 2 => if leap then 29 else 28
  | 3 => 31
  | 4 => 30
  | 5 => 31
  | 6 => 30
  | 7 => 31
  | 8 => 31
  | 9 => 30
  | 10 => 31
  | 11 => 30
  | 12 => 31
  | _ => 0

/-- Raw year-month-day triple. -/
structure DateRaw where
  year : Nat
  month : Nat
  day : Nat
deriving DecidableEq, Repr

/-- Validity of a raw date, exactly the values representable as a Python
`datetime.date` (years are unbounded above; Python's 9999 cap is outside the
claims here). -/
def DateRaw.validP (r : DateRaw) : Prop :=
  1 ≤ r.year ∧ 1 ≤ r.month ∧ r.month ≤ 12 ∧ 1 ≤ r.day ∧
    r.day ≤ daysInMonth (isLeap r.year) r.month

instance (r : DateRaw) : Decidable r.validP := by
  unfold DateRaw.validP; infer_instance

/-- A valid calendar date, the model of a Python `datetime.date` value. -/
def Date := { r : DateRaw // r.validP }

instance : DecidableEq Date := fun a b =>
  decidable_of_iff (a.val = b.val) Subtype.ext_iff.symm

/-- Days elapsed before the first day of month `m` within one year. -/
def daysBeforeMonth (leap : Bool) : Nat → Nat
  | 1 => 0
  | 2 => 31
  | 3 => if leap then 60 else 59
  | 4 => if leap then 91 else 90
  | 5 => if leap then 121 else 120
  | 6 => if leap then 152 else 151
  | 7 => if leap then 182 else 181
  | 8 => if leap then 213 else 212
  | 9 => if leap then 244 else 243
  | 10 => if leap then 274 else 273
  | 11 => if leap then 305 else 304
  | 12 => if leap then 335 else 334
  | _ => 0

/-- Days elapsed in the proleptic Gregorian calendar before January 1st of
year `y`. -/
def daysBeforeYear (y : Nat) : Nat :=
  (y - 1) * 365 + (y - 1) / 4 - (y - 1) / 100 + (y - 1) / 400

/-- Rata-die ordinal of a raw date (the analogue of
`datetime.date.toordinal`). -/
def rataDie (r : DateRaw) : Nat :=
  daysBeforeYear r.year + daysBeforeMonth (isLeap r.year) r.month + r.day

/-- Lexicographic (calendar) order on raw dates, the semantics of Python
`date` comparison. -/
def dateLexLe (a b : DateRaw) : Prop :=
  a.year < b.year ∨ (a.year = b.year ∧
    (a.month < b.month ∨ (a.month = b.month ∧ a.day ≤ b.day)))

/-- Strict lexicographic (calendar) order on raw dates. -/
def dateLexLt (a b : DateRaw) : Prop :=
  a.year < b.year ∨ (a.year = b.year ∧
    (a.month < b.month ∨ (a.month = b.month ∧ a.day < b.day)))

instance (a b : DateRaw) : Decidable (dateLexLe a b) := by
  unfold dateLexLe; infer_instance

instance (a b : DateRaw) : Decidable (dateLexLt a b) := by
  unfold dateLexLt; infer_instance

/-- Python `a <= b` on dates. -/
def dateLeB (a b : DateRaw) : Bool := decide (dateLexLe a b)

/-- Python `a < b` on dates. -/
def dateLtB (a b : DateRaw) : Bool := decide (dateLexLt a b)

theorem daysBeforeMonth_step (leap : Bool) (m : Nat) (h1 : 1 ≤ m) (h2 : m ≤ 11) :
    daysBeforeMonth leap (m + 1) = daysBeforeMonth leap m + daysInMonth leap m := by
  interval_cases m <;> cases leap <;> rfl

theorem daysBeforeMonth_add_le (leap : Bool) (m n : Nat) (h1 : 1 ≤ m) (h : m < n)
    (h2 : n ≤ 12) :
    daysBeforeMonth leap m + daysInMonth leap m ≤ daysBeforeMonth leap n := by
  have hm2 : m ≤ 11 := by omega
  interval_cases m <;> interval_cases n <;> cases leap <;> decide

theorem daysBeforeYear_step_true (y : Nat) (h : 1 ≤ y) (hl : isLeap y = true) :
    daysBeforeYear (y + 1) = daysBeforeYear y + 366 := by
  have hm : (y % 4 = 0 ∧ ¬ y % 100 = 0) ∨ y % 400 = 0 := by
    simpa [isLeap] using hl
  unfold daysBeforeYear
  omega

theorem daysBeforeYear_step_false (y : Nat) (h : 1 ≤ y) (hl : isLeap y = false) :
    daysBeforeYear (y + 1) = daysBeforeYear y + 365 := by
  have hm : ¬ ((y % 4 = 0 ∧ ¬ y % 100 = 0) ∨ y % 400 = 0) := by
    simpa [isLeap] using hl
  unfold daysBeforeYear
  omega

theorem daysBeforeYear_le_succ (y : Nat) : daysBeforeYear y ≤ daysBeforeYear (y + 1) := by
  rcases Nat.eq_zero_or_pos y with h0 | h1
  · subst h0; decide
  · rcases Bool.eq_false_or_eq_true (isLeap y) with hl | hl
    · rw [daysBeforeYear_step_true y h1 hl]; omega
    · rw [daysBeforeYear_step_false y h1 hl]; omega

theorem daysBeforeYear_mono {x y : Nat} (h : x ≤ y) :
    daysBeforeYear x ≤ daysBeforeYear y := by
  induction y with
  | zero => simp_all
  | succ n ih =>
    rcases Nat.lt_or_ge x (n + 1) with hx | hx
    · exact Nat.le_trans (ih (by omega)) (daysBeforeYear_le_succ n)
    · have hxe : x = n + 1 := by omega
      rw [hxe]

theorem dayOfYear_le_true (m d : Nat) (h1 : 1 ≤ m) (h2 : m ≤ 12)
    (h4 : d ≤ daysInMonth true m) :
    daysBeforeMonth true m + d ≤ 366 := by
  interval_cases m <;> simp [daysInMonth, daysBeforeMonth] at h4 ⊢ <;> omega

theorem dayOfYear_le_false (m d : Nat) (h1 : 1 ≤ m) (h2 : m ≤ 12)
    (h4 : d ≤ daysInMonth false m) :
    daysBeforeMonth false m + d ≤ 365 := by
  interval_cases m <;> simp [daysInMonth, daysBeforeMonth] at h4 ⊢ <;> omega

theorem rataDie_le_year_end (r : DateRaw) (h : r.validP) :
    rataDie r ≤ daysBeforeYear (r.year + 1) := by
  obtain ⟨h1, h2, h3, h4, h5⟩ := h
  unfold rataDie
  rcases Bool.eq_false_or_eq_true (isLeap r.year) with hl | hl
  · rw [hl] at h5
    have hdoy := dayOfYear_le_true r.month r.day h2 h3 h5
    rw [daysBeforeYear_step_true r.year h1 hl, hl]
    omega
  · rw [hl] at h5
    have hdoy := dayOfYear_le_false r.month r.day h2 h3 h5
    rw [daysBeforeYear_step_false r.year h1 hl, hl]
    omega

theorem rataDie_lt_of_lt (a b : DateRaw) (ha : a.validP) (hb : b.validP)
    (h : dateLexLt a b) : rataDie a < rataDie b := by
  have hend := rataDie_le_year_end a ha
  obtain ⟨ya, ma, da⟩ := a
  obtain ⟨yb, mb, db⟩ := b
  obtain ⟨ha1, ha2, ha3, ha4, ha5⟩ := ha
  obtain ⟨hb1, hb2, hb3, hb4, hb5⟩ := hb
  rcases h with hy | ⟨hy, hm | ⟨hm, hd⟩⟩
  · have hmono : daysBeforeYear (ya + 1) ≤ daysBeforeYear yb := daysBeforeYear_mono hy
    simp only [rataDie] at *
    omega
  · simp only at hy
    subst hy
    have hle : daysBeforeMonth (isLeap ya) ma + daysInMonth (isLeap ya) ma ≤
        daysBeforeMonth (isLeap ya) mb :=
      daysBeforeMonth_add_le _ _ _ ha2 hm hb3
    simp only [rataDie] at *
    omega
  · simp only at hy hm
    subst hy
    subst hm
    simp only [rataDie] at *
    omega

theorem rataDie_le_of_le (a b : DateRaw) (ha : a.validP) (hb : b.validP)
    (h : dateLexLe a b) : rataDie a ≤ rataDie b := by
  rcases h with hy | ⟨hy, hm | ⟨hm, hd⟩⟩
  · exact Nat.le_of_lt (rataDie_lt_of_lt a b ha hb (Or.inl hy))
  · exact Nat.le_of_lt (rataDie_lt_of_lt a b ha hb (Or.inr ⟨hy, Or.inl hm⟩))
  · rcases Nat.lt_or_ge a.day b.day with hlt | hge
    · exact Nat.le_of_lt (rataDie_lt_of_lt a b ha hb (Or.inr ⟨hy, Or.inr ⟨hm, hlt⟩⟩))
    · have hab : a = b := by
        obtain ⟨ya, ma, da⟩ := a
        obtain ⟨yb, mb, db⟩ := b
        simp only at hy hm hd hge ⊢
        simp only [DateRaw.mk.injEq]
        omega
      rw [hab]

theorem dateLex_trichotomy (a b : DateRaw) :
    dateLexLt a b ∨ a = b ∨ dateLexLt b a := by
  unfold dateLexLt
  rcases a with ⟨ay, am, ad⟩
  rcases b with ⟨by_, bm, bd⟩
  simp only [DateRaw.mk.injEq]
  omega

theorem rataDie_lt_iff (a b : DateRaw) (ha : a.validP) (hb : b.validP) :
    rataDie a < rataDie b ↔ dateLexLt a b := by
  constructor
  · intro h
    rcases dateLex_trichotomy a b with ht | ht | ht
    · exact ht
    · rw [ht] at h; omega
    · exact absurd (rataDie_lt_of_lt b a hb ha ht) (by omega)
  · exact rataDie_lt_of_lt a b ha hb

theorem rataDie_le_iff (a b : DateRaw) (ha : a.validP) (hb : b.validP) :
    rataDie a ≤ rataDie b ↔ dateLexLe a b := by
  constructor
  · intro h
    rcases dateLex_trichotomy a b with ht | ht | ht
    · unfold dateLexLt at ht
      unfold dateLexLe
      omega
    · rw [ht]
      unfold dateLexLe
      omega
    · exact absurd (rataDie_lt_of_lt b a hb ha ht) (by omega)
  · exact rataDie_le_of_le a b ha hb

theorem rataDie_inj (a b : DateRaw) (ha : a.validP) (hb : b.validP)
    (h : rataDie a = rataDie b) : a = b := by
  rcases dateLex_trichotomy a b with ht | ht | ht
  · exact absurd (rataDie_lt_of_lt a b ha hb ht) (by omega)
  · exact ht
  · exact absurd (rataDie_lt_of_lt b a hb ha ht) (by omega)

end HRAgent

namespace HRAgent


theorem validP_day_succ (r : DateRaw) (h : r.validP)
    (hlt : r.day < daysInMonth (isLeap r.year) r.month) :
    DateRaw.validP ⟨r.year, r.month, r.day + 1⟩ := by
  obtain ⟨ry, rm, rd⟩ := r
  obtain ⟨h1, h2, h3, h4, h5⟩ := h
  dsimp only at h1 h2 h3 h4 h5 hlt
  exact ⟨h1, h2, h3, by dsimp only; omega, hlt⟩

theorem validP_month_succ (r : DateRaw) (h : r.validP) (hm : r.month < 12) :
    DateRaw.validP ⟨r.year, r.month + 1, 1⟩ := by
  obtain ⟨ry, rm, rd⟩ := r
  obtain ⟨h1, h2, h3, h4, h5⟩ := h
  dsimp only at h1 h2 h3 h4 h5 hm
  refine ⟨h1, by dsimp only; omega, by dsimp only; omega, by dsimp only; omega, ?_⟩
  show 1 ≤ daysInMonth (isLeap ry) (rm + 1)
  rcases Bool.eq_false_or_eq_true (isLeap ry) with hl | hl <;> rw [hl] <;>
    interval_cases rm <;> decide

theorem validP_year_succ (r : DateRaw) (h : r.validP) :
    DateRaw.validP ⟨r.year + 1, 1, 1⟩ := by
  obtain ⟨ry, rm, rd⟩ := r
  obtain ⟨h1, h2, h3, h4, h5⟩ := h
  dsimp only at h1 h2 h3 h4 h5
  refine ⟨by dsimp only; omega, by dsimp only; omega, by dsimp only; omega,
    by dsimp only; omega, ?_⟩
  show 1 ≤ daysInMonth (isLeap (ry + 1)) 1
  rcases Bool.eq_false_or_eq_true (isLeap (ry + 1)) with hl | hl <;> rw [hl] <;> decide

/-- Successor date (`current += timedelta(days=1)` in `_date_range`). -/
def nextDay (d : Date) : Date :=
  if h : d.val.day < daysInMonth (isLeap d.val.year) d.val.month then
    ⟨⟨d.val.year, d.val.month, d.val.day + 1⟩, validP_day_succ d.val d.property h⟩
  else if h2 : d.val.month < 12 then
    ⟨⟨d.val.year, d.val.month + 1, 1⟩, validP_month_succ d.val d.property h2⟩
  else
    ⟨⟨d.val.year + 1, 1, 1⟩, validP_year_succ d.val d.property⟩

theorem rataDie_nextDay (d : Date) : rataDie (nextDay d).val = rataDie d.val + 1 := by
  obtain ⟨hv1, hv2, hv3, hv4, hv5⟩ := d.property
  unfold nextDay
  split
  · simp only [rataDie]
    omega
  · split
    · rename_i hday hm
      have hde : d.val.day = daysInMonth (isLeap d.val.year) d.val.month := by omega
      have hstep := daysBeforeMonth_step (isLeap d.val.year) d.val.month hv2 (by omega)
      simp only [rataDie]
      omega
    · rename_i hday hm
      have hm12 : d.val.month = 12 := by omega
      have hde : d.val.day = 31 := by
        rw [hm12] at hday hv5
        rcases Bool.eq_false_or_eq_true (isLeap d.val.year) with hl | hl <;>
          rw [hl] at hday hv5 <;> simp [daysInMonth] at hday hv5 <;> omega
      simp only [rataDie, hm12, hde]
      have h1 : daysBeforeMonth (isLeap (d.val.year + 1)) 1 = 0 := by
        rcases Bool.eq_false_or_eq_true (isLeap (d.val.year + 1)) with h2 | h2 <;>
          rw [h2] <;> decide
      rw [h1]
      rcases Bool.eq_false_or_eq_true (isLeap d.val.year) with hl | hl
      · rw [daysBeforeYear_step_true d.val.year hv1 hl, hl]
        simp [daysBeforeMonth]
      · rw [daysBeforeYear_step_false d.val.year hv1 hl, hl]
        simp [daysBeforeMonth]

/-- Body of the `while current <= end` loop of `_date_range`, with explicit
fuel so that the definition is structurally recursive; `_date_range` below
supplies fuel that always suffices (`dateRangeGo_fuel_free`), so this is an
exact model of the unbounded loop. -/
def dateRangeGo (e : Date) : Nat → Date → List Date
  | 0, _ => []
  | fuel + 1, c => if dateLeB c.val e.val then c :: dateRangeGo e fuel (nextDay c) else []

/-- `function_app._date_range(start, end)`: the list of calendar days from
`start` while the running day is `<= end`. -/
def _date_range (s e : Date) : List Date :=
  dateRangeGo e (rataDie e.val + 1 - rataDie s.val) s

theorem dateRangeGo_fuel_free (e : Date) :
    ∀ (n m : Nat) (c : Date), rataDie e.val + 1 - rataDie c.val ≤ n →
      rataDie e.val + 1 - rataDie c.val ≤ m → dateRangeGo e n c = dateRangeGo e m c := by
  intro n
  induction n with
  | zero =>
    intro m c hn hm
    have hce : ¬ dateLexLe c.val e.val := by
      intro hle
      have := rataDie_le_of_le c.val e.val c.property e.property hle
      omega
    cases m with
    | zero => rfl
    | succ m =>
      simp only [dateRangeGo, dateLeB, decide_eq_true_eq]
      rw [if_neg hce]
  | succ n ih =>
    intro m c hn hm
    by_cases hce : dateLexLe c.val e.val
    · have hlt := rataDie_le_of_le c.val e.val c.property e.property hce
      have hnext := rataDie_nextDay c
      cases m with
      | zero => omega
      | succ m =>
        simp only [dateRangeGo, dateLeB, decide_eq_true_eq]
        rw [if_pos hce, if_pos hce, ih m (nextDay c) (by omega) (by omega)]
    · cases m with
      | zero =>
        simp only [dateRangeGo, dateLeB, decide_eq_true_eq]
        rw [if_neg hce]
      | succ m =>
        simp only [dateRangeGo, dateLeB, decide_eq_true_eq]
        rw [if_neg hce, if_neg hce]

theorem dateRangeGo_mem (e : Date) :
    ∀ (n : Nat) (c : Date), rataDie e.val + 1 - rataDie c.val ≤ n →
      ∀ d : Date, d ∈ dateRangeGo e n c ↔ (dateLexLe c.val d.val ∧ dateLexLe d.val e.val) := by
  intro n
  induction n with
  | zero =>
    intro c hn d
    simp only [dateRangeGo, List.not_mem_nil, false_iff]
    intro hcd
    have h1 := rataDie_le_of_le c.val d.val c.property d.property hcd.1
    have h2 := rataDie_le_of_le d.val e.val d.property e.property hcd.2
    omega
  | succ n ih =>
    intro c hn d
    by_cases hce : dateLexLe c.val e.val
    · have hlece := rataDie_le_of_le c.val e.val c.property e.property hce
      have hnext := rataDie_nextDay c
      simp only [dateRangeGo, dateLeB, decide_eq_true_eq]
      rw [if_pos hce]
      simp only [List.mem_cons]
      rw [ih (nextDay c) (by omega)]
      constructor
      · rintro (hdc | ⟨h1, h2⟩)
        · subst hdc
          refine ⟨?_, hce⟩
          rcases d with ⟨⟨dy, dm, dd⟩, hd⟩
          exact Or.inr ⟨rfl, Or.inr ⟨rfl, le_refl _⟩⟩
        · refine ⟨?_, h2⟩
          have hnc := rataDie_le_of_le (nextDay c).val d.val (nextDay c).property d.property h1
          exact (rataDie_le_iff c.val d.val c.property d.property).mp (by omega)
      · rintro ⟨h1, h2⟩
        have hcd := rataDie_le_of_le c.val d.val c.property d.property h1
        rcases Nat.eq_or_lt_of_le hcd with heq | hlt
        · left
          have := rataDie_inj c.val d.val c.property d.property heq
          exact Subtype.ext this.symm
        · right
          refine ⟨?_, h2⟩
          exact (rataDie_le_iff (nextDay c).val d.val (nextDay c).property d.property).mp
            (by omega)
    · simp only [dateRangeGo, dateLeB, decide_eq_true_eq]
      rw [if_neg hce]
      simp only [List.not_mem_nil, false_iff]
      intro hcd
      have h1 := rataDie_le_of_le c.val d.val c.property d.property hcd.1
      have h2 := rataDie_le_of_le d.val e.val d.property e.property hcd.2
      exact hce ((rataDie_le_iff c.val e.val c.property e.property).mp (by omega))

theorem dateRangeGo_length (e : Date) :
    ∀ (n : Nat) (c : Date), rataDie e.val + 1 - rataDie c.val ≤ n →
      (dateRangeGo e n c).length = rataDie e.val + 1 - rataDie c.val := by
  intro n
  induction n with
  | zero =>
    intro c hn
    simp only [dateRangeGo, List.length_nil]
    omega
  | succ n ih =>
    intro c hn
    by_cases hce : dateLexLe c.val e.val
    · have hlece := rataDie_le_of_le c.val e.val c.property e.property hce
      have hnext := rataDie_nextDay c
      simp only [dateRangeGo, dateLeB, decide_eq_true_eq]
      rw [if_pos hce]
      simp only [List.length_cons]
      rw [ih (nextDay c) (by omega)]
      omega
    · have hgt : ¬ rataDie c.val ≤ rataDie e.val := by
        intro hle
        exact hce ((rataDie_le_iff c.val e.val c.property e.property).mp hle)
      simp only [dateRangeGo, dateLeB, decide_eq_true_eq]
      rw [if_neg hce]
      simp only [List.length_nil]
      omega

theorem dateRangeGo_pairwise (e : Date) :
    ∀ (n : Nat) (c : Date), rataDie e.val + 1 - rataDie c.val ≤ n →
      List.Pairwise (fun a b : Date => dateLexLt a.val b.val) (dateRangeGo e n c) := by
  intro n
  induction n with
  | zero => intro c _; simp [dateRangeGo]
  | succ n ih =>
    intro c hn
    by_cases hce : dateLexLe c.val e.val
    · have hlece := rataDie_le_of_le c.val e.val c.property e.property hce
      have hnext := rataDie_nextDay c
      simp only [dateRangeGo, dateLeB, decide_eq_true_eq]
      rw [if_pos hce]
      refine List.Pairwise.cons ?_ (ih (nextDay c) (by omega))
      intro d hd
      have hmem := (dateRangeGo_mem e n (nextDay c) (by omega) d).mp hd
      have h1 := rataDie_le_of_le (nextDay c).val d.val (nextDay c).property d.property hmem.1
      exact (rataDie_lt_iff c.val d.val c.property d.property).mp (by omega)
    · simp only [dateRangeGo, dateLeB, decide_eq_true_eq]
      rw [if_neg hce]
      simp

end HRAgent

namespace HRAgent

/-- `datetime.strptime(s, "%Y-%m-%d").date()`: exactly three dash-separated
fields, a four-digit year, one- or two-digit month and day, and the resulting
triple must be a real calendar date; `none` models the `ValueError` raised
otherwise. -/
def parseDate (s : String) : Option Date :=
  match splitOnChar '-' s.data with
  | [ys, ms, ds] =>
    if ys.length = 4 ∧ allDigits ys = true ∧
        1 ≤ ms.length ∧ ms.length ≤ 2 ∧ allDigits ms = true ∧
        1 ≤ ds.length ∧ ds.length ≤ 2 ∧ allDigits ds = true then
      let r : DateRaw := ⟨digitsVal ys, digitsVal ms, digitsVal ds⟩
      if h : r.validP then some ⟨r, h⟩ else none
    else none
  | _ => none

/-- `date.isoformat()`: zero-padded `YYYY-MM-DD`. -/
def isoDate (r : DateRaw) : String :=
  padNat 4 r.year ++ "-" ++ padNat 2 r.month ++ "-" ++ padNat 2 r.day

/-- One element of the `days` array built by `_create_days_array`: the
Python dict with fixed keys `date`/`start`/`end`/`dailyQuantity`/`comment`
and nested `timeOffType: {id: ...}`. -/
structure DayEntry where
  date : String
  start : String
  end_ : String
  dailyQuantity : String
  comment : JE
  timeOffType_id : JE

/-- `unit.lower()`: `AttributeError` when `unit` is not a string. -/
def pyLowerJE : JE → Except PyErr String
  | .str s => .ok (pyLowerStr s)
  | _ => .error .attributeError

/-- The two `datetime.strptime` calls of `_create_days_array` sit in one
`try` whose `except ValueError` re-raises with a fixed message; a non-string
argument raises `TypeError`, which that handler does not catch. -/
def strptimeWrapped : JE → Except PyErr Date
  | .str s =>
    match parseDate s with
    | some d => .ok d
    | none => .error (.valueError "startDate and endDate must use YYYY-MM-DD format")
  | _ => .error .typeError

/-- `function_app._create_days_array`.  The `unit.lower()` test is hoisted
out of the per-day loop: it is evaluated on the first iteration in the
source, and the loop body runs at least once whenever the guard
`end < start` has failed, so the hoisting is behaviour-preserving. -/
def _create_days_array (start_date end_date : JE) (quantity : String)
    (unit reason time_off_type_id : JE) : Except PyErr (List DayEntry) := do
  let start ← strptimeWrapped start_date
  let end_ ← strptimeWrapped end_date
  if dateLtB end_.val start.val then
    throw (.valueError "endDate cannot be earlier than startDate")
  else
    let lowerUnit ← pyLowerJE unit
    let daily_quantity := if lowerUnit = "days" then "8" else quantity
    pure ((_date_range start end_).map fun day =>
      { date := isoDate day.val ++ "T08:00:00.000Z"
        start := isoDate day.val ++ "T08:00:00.000Z"
        end_ := isoDate day.val ++ "T17:00:00.000Z"
        dailyQuantity := daily_quantity
        comment := reason
        timeOffType_id := time_off_type_id })

end HRAgent

namespace HRAgent

namespace Workday

/-- `WorkdayUserContext` (dataclass in `workday/client.py`). -/
structure WorkdayUserContext where
  worker_id : String
  workday_id : String
deriving DecidableEq, Repr

/-- The instance-scoped mutable state of a `WorkdayClient`: the
`self._user_context` cache (the worker-profile cache is not exercised by the
claims checked here). -/
structure ClientSt where
  user_context : Option WorkdayUserContext
deriving DecidableEq, Repr

/-- The fresh state of a newly constructed `WorkdayClient`. -/
def initSt : ClientSt := ⟨none⟩

/-- One backend HTTP request, as recorded in the call log of this model. -/
inductive Call where
  | workerSearch
  | leaveBalances
  | eligibleAbsenceTypes
  | leavesOfAbsence
  | timeOffDetails
  | requestTimeOff
  | searchContent
  | contentLessons (id : JE)

/-- The environment of one request: for every endpoint the outcome that
`WorkdayClient._request` would produce for it (either the decoded JSON body
or the raised `WorkdayError`).  Query-string and body assembly for the
outgoing requests is transport-level plumbing outside this model. -/
structure Backend where
  workerSearch : Except WorkdayErr JE
  leaveBalances : Except WorkdayErr JE
  eligibleAbsenceTypes : Except WorkdayErr JE
  leavesOfAbsence : Except WorkdayErr JE
  timeOffDetails : Except WorkdayErr JE
  requestTimeOff : Except WorkdayErr JE
  searchContent : Except WorkdayErr JE
  contentLessons : JE → Except WorkdayErr JE

/-- Lift a `_request` outcome into the handler-level error type. -/
def liftWd : Except WorkdayErr JE → Except PyErr JE
  | .ok v => .ok v
  | .error w => .error (.workday w)

/-- `payload.get(key) if isinstance(payload, dict) else []` — the shared
collection-extraction line of every record normalizer. -/
def collectionItems (key : String) (payload : JE) : JE :=
  match payload with
  | .obj kvs => (lookupKey kvs key).getD .null
  | _ => .arr []

/-- `payload.get("Report_Entry") if isinstance(payload, dict) else None`
(the entry extraction of `get_user_context`). -/
def collectionEntries (payload : JE) : JE :=
  match payload with
  | .obj kvs => (lookupKey kvs "Report_Entry").getD .null
  | _ => .null

/-- `WorkdayClient.get_user_context`: returns the cached context when
present; otherwise issues the worker-search report call, takes the first
`Report_Entry`, requires both identifier fields (under either casing) to be
truthy, and caches the context. -/
def get_user_context (b : Backend) (st : ClientSt) :
    Except PyErr WorkdayUserContext × ClientSt × List Call :=
  match st.user_context with
  | some ctx => (.ok ctx, st, [])
  | none =>
    match b.workerSearch with
    | .error w => (.error (.workday w), st, [.workerSearch])
    | .ok payload =>
      let entries : JE := collectionEntries payload
      if entries.truthy then
        match pyIndex0 entries with
        | .error e => (.error e, st, [.workerSearch])
        | .ok entry =>
          match pyOrE (pyGet entry "Current_User") (fun _ => pyGet entry "current_user") with
          | .error e => (.error e, st, [.workerSearch])
          | .ok worker_id =>
            match pyOrE (pyGet entry "workdayID") (fun _ => pyGet entry "workdayId") with
            | .error e => (.error e, st, [.workerSearch])
            | .ok workday_id =>
              if worker_id.truthy && workday_id.truthy then
                let ctx : WorkdayUserContext := ⟨pyStr worker_id, pyStr workday_id⟩
                (.ok ctx, ⟨some ctx⟩, [.workerSearch])
              else
                (.error (.workday
                  ⟨"Worker search response did not include expected identifiers", none, entry⟩),
                  st, [.workerSearch])
      else
        (.error (.workday ⟨"Workday worker search report returned no entries", none, .null⟩),
          st, [.workerSearch])

/-- One record of `WorkdayClient.get_leave_balances`. -/
def leave_balance_record (item : JE) : Except PyErr JE := do
  let ap ← pyGetD item "absencePlan" (.obj [])
  let planName ← pyGet ap "descriptor"
  let planId ← pyGet ap "id"
  let balance ← pyGetD item "quantity" (.str "0")
  let unitObj ← pyGetD item "unit" (.obj [])
  let unitDesc ← pyGet unitObj "descriptor"
  let effectiveDate ← pyGet item "effectiveDate"
  let timeOffTypes ← pyGetD ap "timeoffs" (.str "")
  pure (.obj [("planName", planName), ("planId", planId), ("balance", balance),
    ("unit", unitDesc), ("effectiveDate", effectiveDate), ("timeOffTypes", timeOffTypes)])

/-- `WorkdayClient.get_leave_balances`, as a function of the `_request`
outcome `resp`. -/
def get_leave_balances (resp : Except WorkdayErr JE) : Except PyErr (List JE) := do
  let payload ← liftWd resp
  let xs ← pyIter (collectionItems "data" payload)
  xs.mapM leave_balance_record

/-- One record of `WorkdayClient.get_eligible_absence_types`. -/
def eligible_absence_type_record (item : JE) : Except PyErr JE := do
  let name ← pyGet item "descriptor"
  let id_ ← pyGet item "id"
  let unitObj ← pyGetD item "unitOfTime" (.obj [])
  let unitDesc ← pyGet unitObj "descriptor"
  let catObj ← pyGetD item "category" (.obj [])
  let category ← pyGet catObj "descriptor"
  let groupObj ← pyGetD item "absenceTypeGroup" (.obj [])
  let group ← pyGet groupObj "descriptor"
  let dailyDefaultQuantity ← pyGet item "dailyDefaultQuantity"
  let startAndEndTimeRequired ← pyGetD item "startAndEndTimeRequired" (.bool false)
  let calcQ ← pyGetD item "calculateQuantityBasedOnStartAndEndTime" (.bool false)
  pure (.obj [("name", name), ("id", id_), ("unit", unitDesc), ("category", category),
    ("group", group), ("dailyDefaultQuantity", dailyDefaultQuantity),
    ("startAndEndTimeRequired", startAndEndTimeRequired),
    ("calculateQuantityBasedOnTime", calcQ)])

/-- `WorkdayClient.get_eligible_absence_types`. -/
def get_eligible_absence_types (resp : Except WorkdayErr JE) : Except PyErr (List JE) := do
  let payload ← liftWd resp
  let xs ← pyIter (collectionItems "data" payload)
  xs.mapM eligible_absence_type_record

/-- One record of `WorkdayClient.get_leaves_of_absence`. -/
def leave_of_absence_record (item : JE) : Except PyErr JE := do
  let id_ ← pyGet item "id"
  let ltObj ← pyGetD item "leaveType" (.obj [])
  let leaveType ← pyGet ltObj "descriptor"
  let stObj ← pyGetD item "status" (.obj [])
  let status ← pyGet stObj "descriptor"
  let firstDayOfLeave ← pyGet item "firstDayOfLeave"
  let lastDayOfWork ← pyGet item "lastDayOfWork"
  let estimatedLastDay ← pyGet item "estimatedLastDayOfLeave"
  let comment ← pyGetD item "latestLeaveComment" (.str "")
  pure (.obj [("id", id_), ("leaveType", leaveType), ("status", status),
    ("firstDayOfLeave", firstDayOfLeave), ("lastDayOfWork", lastDayOfWork),
    ("estimatedLastDay", estimatedLastDay), ("comment", comment)])

/-- `WorkdayClient.get_leaves_of_absence`. -/
def get_leaves_of_absence (resp : Except WorkdayErr JE) : Except PyErr (List JE) := do
  let payload ← liftWd resp
  let xs ← pyIter (collectionItems "data" payload)
  xs.mapM leave_of_absence_record

/-- One record of `WorkdayClient.get_time_off_details`. -/
def time_off_detail_record (item : JE) : Except PyErr JE := do
  let date ← pyGet item "date"
  let ttObj ← pyGetD item "timeOffType" (.obj [])
  let timeOffType ← pyGet ttObj "descriptor"
  let quantity ← pyGet item "quantity"
  let unitObj ← pyGetD item "unit" (.obj [])
  let unitDesc ← pyGet unitObj "descriptor"
  let stObj ← pyGetD item "status" (.obj [])
  let status ← pyGet stObj "descriptor"
  let comment ← pyGetD item "comment" (.str "")
  pure (.obj [("date", date), ("timeOffType", timeOffType), ("quantity", quantity),
    ("unit", unitDesc), ("status", status), ("comment", comment)])

/-- `WorkdayClient.get_time_off_details`. -/
def get_time_off_details (resp : Except WorkdayErr JE) : Except PyErr (List JE) := do
  let payload ← liftWd resp
  let xs ← pyIter (collectionItems "data" payload)
  xs.mapM time_off_detail_record

/-- One record of `WorkdayClient.get_time_off_entries`. -/
def time_off_entry_record (item : JE) : Except PyErr JE := do
  let empObj ← pyGetD item "employee" (.obj [])
  let employee ← pyGet empObj "descriptor"
  let torObj ← pyGetD item "timeOffRequest" (.obj [])
  let timeOffRequestStatus ← pyGet torObj "status"
  let timeOffRequestDescriptor ← pyGet torObj "descriptor"
  let uotObj ← pyGetD item "unitOfTime" (.obj [])
  let unitOfTime ← pyGet uotObj "descriptor"
  let toObj ← pyGetD item "timeOff" (.obj [])
  let planObj ← pyGetD toObj "plan" (.obj [])
  let timeOffPlan ← pyGet planObj "descriptor"
  let timeOffDescriptor ← pyGet toObj "descriptor"
  let date ← pyGet item "date"
  let units ← pyGet item "units"
  let descriptor ← pyGet item "descriptor"
  pure (.obj [("employee", employee), ("timeOffRequestStatus", timeOffRequestStatus),
    ("timeOffRequestDescriptor", timeOffRequestDescriptor), ("unitOfTime", unitOfTime),
    ("timeOffPlan", timeOffPlan), ("timeOffDescriptor", timeOffDescriptor),
    ("date", date), ("units", units), ("descriptor", descriptor)])

/-- `WorkdayClient.get_time_off_entries`. -/
def get_time_off_entries (resp : Except WorkdayErr JE) : Except PyErr (List JE) := do
  let payload ← liftWd resp
  let xs ← pyIter (collectionItems "data" payload)
  xs.mapM time_off_entry_record

/-- One record of `WorkdayClient.get_inbox_tasks`. -/
def inbox_task_record (item : JE) : Except PyErr JE := do
  let assigned ← pyGet item "assigned"
  let due ← pyGet item "due"
  let initObj ← pyGetD item "initiator" (.obj [])
  let initiator ← pyGet initObj "descriptor"
  let stObj ← pyGetD item "status" (.obj [])
  let status ← pyGet stObj "descriptor"
  let stepObj ← pyGetD item "stepType" (.obj [])
  let stepType ← pyGet stepObj "descriptor"
  let subjObj ← pyGetD item "subject" (.obj [])
  let subject ← pyGet subjObj "descriptor"
  let opObj ← pyGetD item "overallProcess" (.obj [])
  let overallProcess ← pyGet opObj "descriptor"
  let descriptor ← pyGet item "descriptor"
  pure (.obj [("assigned", assigned), ("due", due), ("initiator", initiator),
    ("status", status), ("stepType", stepType), ("subject", subject),
    ("overallProcess", overallProcess), ("descriptor", descriptor)])

/-- `WorkdayClient.get_inbox_tasks`. -/
def get_inbox_tasks (resp : Except WorkdayErr JE) : Except PyErr (List JE) := do
  let payload ← liftWd resp
  let xs ← pyIter (collectionItems "data" payload)
  xs.mapM inbox_task_record

/-- One record of `WorkdayClient.get_direct_reports`. -/
def direct_report_record (item : JE) : Except PyErr JE := do
  let isManager ← pyGet item "isManager"
  let primaryWorkPhone ← pyGet item "primaryWorkPhone"
  let primaryWorkEmail ← pyGet item "primaryWorkEmail"
  let psoObj ← pyGetD item "primarySupervisoryOrganization" (.obj [])
  let primarySupervisoryOrganization ← pyGet psoObj "descriptor"
  let businessTitle ← pyGet item "businessTitle"
  let descriptor ← pyGet item "descriptor"
  pure (.obj [("isManager", isManager), ("primaryWorkPhone", primaryWorkPhone),
    ("primaryWorkEmail", primaryWorkEmail),
    ("primarySupervisoryOrganization", primarySupervisoryOrganization),
    ("businessTitle", businessTitle), ("descriptor", descriptor)])

/-- `WorkdayClient.get_direct_reports`. -/
def get_direct_reports (resp : Except WorkdayErr JE) : Except PyErr (List JE) := do
  let payload ← liftWd resp
  let xs ← pyIter (collectionItems "data" payload)
  xs.mapM direct_report_record

/-- One record of `WorkdayClient.get_pay_slips`. -/
def pay_slip_record (item : JE) : Except PyErr JE := do
  let gross ← pyGet item "gross"
  let stObj ← pyGetD item "status" (.obj [])
  let status ← pyGet stObj "descriptor"
  let net ← pyGet item "net"
  let date ← pyGet item "date"
  let descriptor ← pyGet item "descriptor"
  pure (.obj [("gross", gross), ("status", status), ("net", net), ("date", date),
    ("descriptor", descriptor)])

/-- `WorkdayClient.get_pay_slips`. -/
def get_pay_slips (resp : Except WorkdayErr JE) : Except PyErr (List JE) := do
  let payload ← liftWd resp
  let xs ← pyIter (collectionItems "data" payload)
  xs.mapM pay_slip_record

/-- One record of `WorkdayClient.get_learning_assignments`
(`str(entry.get(k, "0")) == "1"` turns the flag strings into booleans). -/
def learning_assignment_record (entry : JE) : Except PyErr JE := do
  let assignmentStatus ← pyGet entry "assignmentStatus"
  let dueDate ← pyGet entry "dueDate"
  let learningContent ← pyGet entry "learningContent"
  let overdueRaw ← pyGetD entry "overdue" (.str "0")
  let requiredRaw ← pyGetD entry "required" (.str "0")
  let workdayId ← pyOrE (pyGet entry "workdayId") (fun _ => pyGet entry "workdayID")
  pure (.obj [("assignmentStatus", assignmentStatus), ("dueDate", dueDate),
    ("learningContent", learningContent),
    ("overdue", .bool (pyStr overdueRaw = "1")),
    ("required", .bool (pyStr requiredRaw = "1")),
    ("workdayId", workdayId)])

/-- `WorkdayClient.get_learning_assignments` (its collection key is
`Report_Entry`). -/
def get_learning_assignments (resp : Except WorkdayErr JE) : Except PyErr (List JE) := do
  let payload ← liftWd resp
  let xs ← pyIter (collectionItems "Report_Entry" payload)
  xs.mapM learning_assignment_record

/-- `WorkdayClient.search_learning_content`: wraps a non-dict response as
`{"data": payload}`. -/
def search_learning_content (resp : Except WorkdayErr JE) : Except PyErr JE := do
  let payload ← liftWd resp
  pure (match payload with
    | .obj kvs => .obj kvs
    | other => .obj [("data", other)])

/-- `WorkdayClient.get_content_lessons`: returns
`payload.get("data") if isinstance(payload, dict) else []` — note that a
dict without a `"data"` key yields `None`, not a list. -/
def get_content_lessons (resp : Except WorkdayErr JE) : Except PyErr JE := do
  let payload ← liftWd resp
  pure (match payload with
    | .obj kvs => (lookupKey kvs "data").getD .null
    | _ => .arr [])

/-- `WorkdayClient.request_time_off`: wraps a non-dict response as
`{"workdayResponse": payload}`. -/
def request_time_off (resp : Except WorkdayErr JE) : Except PyErr JE := do
  let payload ← liftWd resp
  pure (match payload with
    | .obj kvs => .obj kvs
    | other => .obj [("workdayResponse", other)])

end Workday

end HRAgent

namespace HRAgent

namespace App

/-- The inbound HTTP request, as seen by the handlers: the raw header dict
(exact-case keys, Python `dict` semantics) and the outcome of
`req.get_json()` (`Except.error` models its `ValueError` on a malformed
body).  Query strings are not needed by the claims checked here. -/
structure Request where
  headers : List (String × String)
  body : Except Unit JE

/-- Python `headers.get(k)`. -/
def headerGet (hs : List (String × String)) (k : String) : Option String :=
  match hs with
  | [] => none
  | (k2, v) :: rest => if k2 = k then some v else headerGet rest k

/-- `function_app._extract_bearer_token`: reads `Authorization` or
`authorization` (Python `or`, so an empty first value falls through), returns
`None` for a falsy header or a header whose lower-cased form does not start
with `"bearer "`, and otherwise the remainder after the seven-character
prefix, stripped. -/
def _extract_bearer_token (req : Request) : Option String :=
  let auth_header : Option String :=
    match headerGet req.headers "Authorization" with
    | some s => if s ≠ "" then some s else headerGet req.headers "authorization"
    | none => headerGet req.headers "authorization"
  match auth_header with
  | none => none
  | some s =>
    if s = "" then none
    else if strStarts (pyLowerStr s) "bearer " then some (pyStrip (strDropChars s 7))
    else none

/-- The JSON envelope and status code of one response
(`function_app._json_response`). -/
structure HttpRes where
  status : Nat
  body : JE

/-- The 401 envelope returned for a missing or empty bearer token. -/
def unauthorizedBody : JE :=
  .obj [("error", .str "Unauthorized"), ("message", .str "Missing or invalid bearer token")]

/-- The 500 envelope returned by the bare `except Exception` arm. -/
def internalErrorBody : JE :=
  .obj [("success", .bool false), ("error", .str "InternalServerError"),
    ("message", .str "An unexpected error occurred.")]

/-- The `except WorkdayError` arm of `_handle_request`: the backend's status
code when it is in 400..599, else 502, with message and payload surfaced
under `details`. -/
def workdayErrorResponse (w : WorkdayErr) : HttpRes :=
  let status : Nat :=
    match w.status_code with
    | some sc => if 400 ≤ sc ∧ sc < 600 then sc else 502
    | none => 502
  ⟨status, .obj [("success", .bool false), ("error", .str "WorkdayError"),
    ("message", .str w.message), ("details", w.payload)]⟩

/-- The type of an embedded route handler body: from the backend environment,
the fresh client state and the request to an outcome, the final client state
and the list of backend calls issued. -/
def Handler : Type :=
  Workday.Backend → Workday.ClientSt → Request →
    Except PyErr JE × Workday.ClientSt × List Workday.Call

/-- `function_app._handle_request`: extracts the bearer token (falsy token
means 401 before the `WorkdayClient` is even constructed, hence before any
backend call), runs the handler, and maps the raised exception class to the
response envelope. -/
def _handle_request (req : Request) (b : Workday.Backend) (handler : Handler) :
    HttpRes × List Workday.Call :=
  match _extract_bearer_token req with
  | none => (⟨401, unauthorizedBody⟩, [])
  | some tok =>
    if tok = "" then (⟨401, unauthorizedBody⟩, [])
    else
      match handler b Workday.initSt req with
      | (.ok payload, _, calls) => (⟨200, payload⟩, calls)
      | (.error (.workday w), _, calls) => (workdayErrorResponse w, calls)
      | (.error (.valueError msg), _, calls) =>
        (⟨400, .obj [("success", .bool false), ("error", .str "BadRequest"),
          ("message", .str msg)]⟩, calls)
      | (.error _, _, calls) => (⟨500, internalErrorBody⟩, calls)

/-- `total_quantity` accumulation over the backend's echoed `days` list:
each iteration is wrapped in `try ... except (TypeError, ValueError):
continue`, so a `dailyQuantity` that does not parse as a float is skipped;
`day.get` on a non-dict raises `AttributeError`, which that `except` clause
does not catch. -/
def booked_day_step (acc : Dec) (day : JE) : Except PyErr Dec :=
  match pyGetD day "dailyQuantity" (.num ⟨0, 0⟩) with
  | .error e => .error e
  | .ok v =>
    match pyFloatOfJE v with
    | .ok q => .ok (acc.add q)
    | .error (.valueError _) => .ok acc
    | .error .typeError => .ok acc
    | .error e => .error e

def sum_booked_days (booked_days : JE) : Except PyErr Dec := do
  let xs ← pyIter booked_days
  xs.foldlM booked_day_step ⟨0, 0⟩

/-- `total_quantity` accumulation over the locally constructed day entries:
`sum(float(day.get("dailyQuantity", 0)) for day in days_array)` with no
`try`, so a parse failure propagates. -/
def local_day_step (acc : Dec) (d : DayEntry) : Except PyErr Dec := do
  let q ← pyFloatOfJE (.str d.dailyQuantity)
  pure (acc.add q)

def sum_local_days (days_array : List DayEntry) : Except PyErr Dec :=
  days_array.foldlM local_day_step ⟨0, 0⟩

/-- The `total_quantity` computation of `book_leave`: prefer the backend's
echoed `days` list (`result.get("days") if isinstance(result, dict) else
None`) when it is truthy, else fall back to the locally constructed day
entries. -/
def compute_total_quantity (result : JE) (days_array : List DayEntry) : Except PyErr Dec :=
  let booked_days : JE :=
    match result with
    | .obj kvs => (lookupKey kvs "days").getD .null
    | _ => .null
  if booked_days.truthy then sum_booked_days booked_days
  else sum_local_days days_array

/-- The handler body of the `bookLeave` route (`function_app.book_leave`). -/
def book_leave_handler : Handler := fun b st req =>
  match req.body with
  | .error _ => (.error (.valueError "Request body must be valid JSON"), st, [])
  | .ok body =>
    match pyGet body "startDate" with
    | .error e => (.error e, st, [])
    | .ok start_date =>
    match pyGet body "endDate" with
    | .error e => (.error e, st, [])
    | .ok end_date =>
    match pyGet body "timeOffTypeId" with
    | .error e => (.error e, st, [])
    | .ok time_off_type_id =>
    match pyGetD body "quantity" (.str "8") with
    | .error e => (.error e, st, [])
    | .ok quantityRaw =>
    let quantity := pyStr quantityRaw
    match pyGetD body "unit" (.str "Hours") with
    | .error e => (.error e, st, [])
    | .ok unit =>
    match pyGetD body "reason" (.str "Time off request") with
    | .error e => (.error e, st, [])
    | .ok reason =>
    if !start_date.truthy || !end_date.truthy || !time_off_type_id.truthy then
      (.error (.valueError "startDate, endDate, and timeOffTypeId are required"), st, [])
    else
      match _create_days_array start_date end_date quantity unit reason time_off_type_id with
      | .error e => (.error e, st, [])
      | .ok days_array =>
        match Workday.get_user_context b st with
        | (.error e, st1, calls) => (.error e, st1, calls)
        | (.ok _ctx, st1, calls) =>
          match Workday.request_time_off b.requestTimeOff with
          | .error e => (.error e, st1, calls ++ [.requestTimeOff])
          | .ok result =>
            match compute_total_quantity result days_array with
            | .error e => (.error e, st1, calls ++ [.requestTimeOff])
            | .ok total_quantity =>
              match (do
                  let bpp1 ← pyGetD result "businessProcessParameters" (.obj [])
                  let obp ← pyGetD bpp1 "overallBusinessProcess" (.obj [])
                  let businessProcess ← pyGet obp "descriptor"
                  let bpp2 ← pyGetD result "businessProcessParameters" (.obj [])
                  let overallStatus ← pyGet bpp2 "overallStatus"
                  let bpp3 ← pyGetD result "businessProcessParameters" (.obj [])
                  let ts ← pyGetD bpp3 "transactionStatus" (.obj [])
                  let transactionStatus ← pyGet ts "descriptor"
                  pure (businessProcess, overallStatus, transactionStatus) :
                    Except PyErr (JE × JE × JE)) with
              | .error e => (.error e, st1, calls ++ [.requestTimeOff])
              | .ok (businessProcess, overallStatus, transactionStatus) =>
                (.ok (.obj [("success", .bool true),
                  ("message", .str "Time off request submitted successfully"),
                  ("bookingDetails", .obj [("businessProcess", businessProcess),
                    ("status", overallStatus),
                    ("transactionStatus", transactionStatus),
                    ("daysBooked", .num ⟨days_array.length, 0⟩),
                    ("totalQuantity", .num total_quantity)]),
                  ("workdayResponse", result)]), st1, calls ++ [.requestTimeOff])

/-- The `bookLeave` route: `_handle_request` applied to the handler body. -/
def book_leave (req : Request) (b : Workday.Backend) : HttpRes × List Workday.Call :=
  _handle_request req b book_leave_handler

/-- The handler body of the `getLeaveBalances` route
(`function_app.get_leave_balances`): identity resolution followed by four
independent backend calls, with no isolation between them. -/
def get_leave_balances_handler : Handler := fun b st _req =>
  match Workday.get_user_context b st with
  | (.error e, st1, calls) => (.error e, st1, calls)
  | (.ok _ctx, st1, calls) =>
    match Workday.get_leave_balances b.leaveBalances with
    | .error e => (.error e, st1, calls ++ [.leaveBalances])
    | .ok leave_balances =>
      match Workday.get_eligible_absence_types b.eligibleAbsenceTypes with
      | .error e => (.error e, st1, calls ++ [.leaveBalances, .eligibleAbsenceTypes])
      | .ok eligible_absence_types =>
        match Workday.get_leaves_of_absence b.leavesOfAbsence with
        | .error e =>
          (.error e, st1, calls ++ [.leaveBalances, .eligibleAbsenceTypes, .leavesOfAbsence])
        | .ok leaves_of_absence =>
          match Workday.get_time_off_details b.timeOffDetails with
          | .error e =>
            (.error e, st1, calls ++
              [.leaveBalances, .eligibleAbsenceTypes, .leavesOfAbsence, .timeOffDetails])
          | .ok booked_time_off =>
            (.ok (.obj [("success", .bool true),
              ("leaveBalances", .arr leave_balances),
              ("eligibleAbsenceTypes", .arr eligible_absence_types),
              ("leavesOfAbsence", .arr leaves_of_absence),
              ("bookedTimeOff", .arr booked_time_off)]), st1, calls ++
              [.leaveBalances, .eligibleAbsenceTypes, .leavesOfAbsence, .timeOffDetails])

/-- The `getLeaveBalances` route. -/
def get_leave_balances (req : Request) (b : Workday.Backend) : HttpRes × List Workday.Call :=
  _handle_request req b get_leave_balances_handler

end App

end HRAgent

namespace HRAgent

namespace App

/-- `x or {}` on a decoded value (used for the optional sub-objects in
`_flatten_lesson`). -/
def orEmptyObj (x : JE) : JE := if x.truthy then x else .obj []

/-- `function_app._flatten_lesson`. -/
def _flatten_lesson (lesson : JE) : Except PyErr JE := do
  let il0 ← pyGet lesson "instructorLedData"
  let instructor_led := orEmptyObj il0
  let md0 ← pyGet lesson "mediaData"
  let media_data := orEmptyObj md0
  let ta0 ← pyGet lesson "trainingActivityData"
  let training_activity := orEmptyObj ta0
  let vc0 ← pyGet instructor_led "virtualClassroomData"
  let virtual_classroom := orEmptyObj vc0
  let ip0 ← pyGet instructor_led "inPersonLedData"
  let in_person := orEmptyObj ip0
  let id_ ← pyGet lesson "id"
  let descriptor ← pyGet lesson "descriptor"
  let description ← pyGet lesson "description"
  let order ← pyGet lesson "order"
  let required ← pyGet lesson "required"
  let ctObj ← pyGetD lesson "contentType" (.obj [])
  let contentType ← pyGet ctObj "descriptor"
  let dur1 ← pyGet instructor_led "duration"
  let duration ←
    if dur1.truthy then pure dur1 else pyGet media_data "duration"
  let ecdObj ← pyGetD lesson "externalContentData" (.obj [])
  let contentURL ← pyGet ecdObj "contentURL"
  let instrRaw ← pyGetD instructor_led "instructors" (.arr [])
  let instrItems ← pyIter instrRaw
  let instructors ← instrItems.mapM (fun it => pyGet it "descriptor")
  let matRaw ← pyGetD training_activity "materials" (.arr [])
  let matItems ← pyIter matRaw
  let materials ← matItems.mapM (fun it => pyGet it "descriptor")
  let atObj ← pyGetD training_activity "activityType" (.obj [])
  let activityType ← pyGet atObj "descriptor"
  let virtualClassroomURL ← pyGet virtual_classroom "virtualClassroomURL"
  let location ← pyGet in_person "adhocLocationName"
  let ta1 ← pyGet instructor_led "trackAttendance"
  let trackAttendance ←
    if ta1.truthy then pure ta1 else pyGet training_activity "trackAttendance"
  let tg1 ← pyGet instructor_led "trackGrades"
  let trackGrades ←
    if tg1.truthy then pure tg1 else pyGet training_activity "trackGrades"
  pure (.obj [("id", id_), ("descriptor", descriptor), ("description", description),
    ("order", order), ("required", required), ("contentType", contentType),
    ("duration", duration), ("contentURL", contentURL),
    ("instructors", .arr instructors), ("materials", .arr materials),
    ("activityType", activityType), ("virtualClassroomURL", virtualClassroomURL),
    ("location", location), ("trackAttendance", trackAttendance),
    ("trackGrades", trackGrades)])

/-- `function_app._flatten_content`: content record plus its (already
flattened) lesson list. -/
def _flatten_content (content : JE) (lessons : List JE) : Except PyErr JE := do
  let id_ ← pyGet content "id"
  let descriptor ← pyGet content "descriptor"
  let description ← pyGet content "description"
  let contentNumber ← pyGet content "contentNumber"
  let contentURL ← pyGet content "contentURL"
  let version ← pyGet content "version"
  let createdOnDate ← pyGet content "createdOnDate"
  let averageRating ← pyGet content "averageRating"
  let ratingCount ← pyGet content "ratingCount"
  let popularity ← pyGet content "popularity"
  let ctObj ← pyGetD content "contentType" (.obj [])
  let contentType ← pyGet ctObj "descriptor"
  let cpObj ← pyGetD content "contentProvider" (.obj [])
  let contentProvider ← pyGet cpObj "descriptor"
  let atObj ← pyGetD content "accessType" (.obj [])
  let accessType ← pyGet atObj "descriptor"
  let dmObj ← pyGetD content "deliveryMode" (.obj [])
  let deliveryMode ← pyGet dmObj "descriptor"
  let slObj ← pyGetD content "skillLevel" (.obj [])
  let skillLevel ← pyGet slObj "descriptor"
  let lsObj ← pyGetD content "lifecycleStatus" (.obj [])
  let lifecycleStatus ← pyGet lsObj "descriptor"
  let asObj ← pyGetD content "availabilityStatus" (.obj [])
  let availabilityStatus ← pyGet asObj "descriptor"
  let excludeFromRecommendations ← pyGet content "excludeFromRecommendations"
  let excludeFromSearchAndBrowse ← pyGet content "excludeFromSearchAndBrowse"
  let lcRaw ← pyGetD content "learningCatalogs" (.arr [])
  let lcItems ← pyIter lcRaw
  let learningCatalogs ← lcItems.mapM (fun it => pyGet it "descriptor")
  let langRaw ← pyGetD content "languages" (.arr [])
  let langItems ← pyIter langRaw
  let languages ← langItems.mapM (fun it => pyGet it "descriptor")
  let skillsRaw ← pyGetD content "skills" (.arr [])
  let skillsItems ← pyIter skillsRaw
  let skills ← skillsItems.mapM (fun it => pyGet it "descriptor")
  let topicsRaw ← pyGetD content "topics" (.arr [])
  let topicsItems ← pyIter topicsRaw
  let topics ← topicsItems.mapM (fun it => pyGet it "descriptor")
  let scRaw ← pyGetD content "securityCategories" (.arr [])
  let scItems ← pyIter scRaw
  let securityCategories ← scItems.mapM (fun it => pyGet it "descriptor")
  let cpersRaw ← pyGetD content "contactPersons" (.arr [])
  let cpersItems ← pyIter cpersRaw
  let contactPersons ← cpersItems.mapM (fun it => pyGet it "descriptor")
  let img0 ← pyGet content "image"
  let imageURL ← pyGet (orEmptyObj img0) "publicURL"
  pure (.obj [("id", id_), ("descriptor", descriptor), ("description", description),
    ("contentNumber", contentNumber), ("contentURL", contentURL), ("version", version),
    ("createdOnDate", createdOnDate), ("averageRating", averageRating),
    ("ratingCount", ratingCount), ("popularity", popularity),
    ("contentType", contentType), ("contentProvider", contentProvider),
    ("accessType", accessType), ("deliveryMode", deliveryMode),
    ("skillLevel", skillLevel), ("lifecycleStatus", lifecycleStatus),
    ("availabilityStatus", availabilityStatus),
    ("excludeFromRecommendations", excludeFromRecommendations),
    ("excludeFromSearchAndBrowse", excludeFromSearchAndBrowse),
    ("learningCatalogs", .arr learningCatalogs), ("languages", .arr languages),
    ("skills", .arr skills), ("topics", .arr topics),
    ("securityCategories", .arr securityCategories),
    ("contactPersons", .arr contactPersons), ("imageURL", imageURL),
    ("lessons", .arr lessons)])

/-- One iteration of the enrichment loop of `search_learning_content`: fetch
the item's lessons (an error of class `WorkdayError` is replaced by an empty
lesson list; any other exception propagates), flatten the lessons and the
content item.  Also returns the backend calls made. -/
def enrich_item (b : Workday.Backend) (item : JE) :
    Except PyErr JE × List Workday.Call :=
  match pyGet item "id" with
  | .error e => (.error e, [])
  | .ok cid =>
    let lessons_raw : Except PyErr JE :=
      match Workday.get_content_lessons (b.contentLessons cid) with
      | .error (.workday _) => .ok (.arr [])
      | other => other
    ((do
      let lr ← lessons_raw
      let ls ← pyIter lr
      let flat ← ls.mapM _flatten_lesson
      _flatten_content item flat), [.contentLessons cid])

/-- The enrichment loop over all content items, accumulating outputs and
backend calls; stops at the first uncaught exception. -/
def enrich_list (b : Workday.Backend) : List JE → Except PyErr (List JE) × List Workday.Call
  | [] => (.ok [], [])
  | item :: rest =>
    match enrich_item b item with
    | (.error e, cs) => (.error e, cs)
    | (.ok r, cs) =>
      match enrich_list b rest with
      | (.error e, cs2) => (.error e, cs ++ cs2)
      | (.ok rs, cs2) => (.ok (r :: rs), cs ++ cs2)

/-- The handler body of the `searchLearningContent` route
(`function_app.search_learning_content`).  The parsing of the repeated
`skills`/`topics` query parameters only shapes the outgoing search request,
which this model represents by the `searchContent` outcome. -/
def search_learning_content_handler : Handler := fun b st _req =>
  match Workday.search_learning_content b.searchContent with
  | .error e => (.error e, st, [.searchContent])
  | .ok content_payload =>
    match pyGetD content_payload "data" (.arr []) with
    | .error e => (.error e, st, [.searchContent])
    | .ok content_items =>
      match pyIter content_items with
      | .error e => (.error e, st, [.searchContent])
      | .ok items =>
        match enrich_list b items with
        | (.error e, calls) => (.error e, st, .searchContent :: calls)
        | (.ok enriched, calls) =>
          (.ok (.obj [("success", .bool true), ("content", .arr enriched),
            ("total", .num ⟨enriched.length, 0⟩)]), st, .searchContent :: calls)

/-- The `searchLearningContent` route. -/
def search_learning_content (req : Request) (b : Workday.Backend) :
    HttpRes × List Workday.Call :=
  _handle_request req b search_learning_content_handler

end App

end HRAgent

namespace HRAgent

namespace Workday

/-- One raw backend HTTP response as seen by `WorkdayClient._request`: status
code, `content-type` header, body text and the outcome of `response.json()`
(`none` models the `ValueError` raised on undecodable bodies). -/
structure HttpResp where
  status : Nat
  content_type : String
  text : String
  json : Option JE

/-- The body-decoding step of `_request`: attempt JSON when the content type
says JSON or the body text is non-empty, falling back to the raw text; an
empty no-JSON body decodes to `None`. -/
def decodeBody (r : HttpResp) : JE :=
  if strStarts r.content_type "application/json" = true ∨ r.text ≠ "" then
    match r.json with
    | some j => j
    | none => .str r.text
  else .null

/-- `response.ok` of the requests library: `False` exactly for status codes
400..599 (1xx, 2xx, 3xx and out-of-range codes are all "ok"). -/
def response_ok (status : Nat) : Bool := decide (¬ (400 ≤ status ∧ status < 600))

/-- `WorkdayClient._request`, as a function of the transport outcome: a
transport exception becomes a `WorkdayError` without status code; a response
is decoded and raised as a `WorkdayError` carrying the status code and the
decoded body exactly when `response.ok` is false. -/
def _request (tr : Except String HttpResp) : Except WorkdayErr JE :=
  match tr with
  | .error msg => .error ⟨"Failed to reach Workday: " ++ msg, none, .null⟩
  | .ok r =>
    let data := decodeBody r
    if response_ok r.status then .ok data
    else .error ⟨"Workday request failed (" ++ natStr r.status ++ ")", some r.status, data⟩

end Workday

theorem natStr_ne_empty (n : Nat) : natStr n ≠ "" := by
  unfold natStr natDigitsGo
  split
  · intro h
    have := congrArg String.data h
    simp at this
  · intro h
    have := congrArg String.data h
    simp at this

theorem append_ne_empty_left (a b : String) (h : a ≠ "") : a ++ b ≠ "" := by
  intro hc
  apply h
  have hd := congrArg String.data hc
  rw [String.data_append] at hd
  rcases List.append_eq_nil.mp hd with ⟨h1, _⟩
  cases a
  simp_all

theorem append_ne_empty_right (a b : String) (h : b ≠ "") : a ++ b ≠ "" := by
  intro hc
  apply h
  have hd := congrArg String.data hc
  rw [String.data_append] at hd
  rcases List.append_eq_nil.mp hd with ⟨_, h2⟩
  cases b
  simp_all

theorem pyStr_ne_empty_of_truthy (j : JE) (h : j.truthy = true) : pyStr j ≠ "" := by
  cases j with
  | null => simp [JE.truthy] at h
  | bool b =>
    cases b
    · simp [JE.truthy] at h
    · simp [pyStr]
  | num d =>
    simp only [pyStr, decStr]
    split
    · unfold intStr
      split
      · exact append_ne_empty_left _ _ (by simp)
      · exact natStr_ne_empty _
    · exact append_ne_empty_left _ _ (append_ne_empty_right _ _ (by simp))
  | str s => simpa [JE.truthy, pyStr] using h
  | arr l => simp [pyStr]
  | obj l => simp [pyStr]

theorem dateLex_not_lt_of_le {a b : DateRaw} (h : dateLexLe a b) : ¬ dateLexLt b a := by
  unfold dateLexLe at h
  unfold dateLexLt
  omega

end HRAgent

namespace HRAgent

theorem get_user_context_fresh_calls (b : Workday.Backend) :
    (Workday.get_user_context b Workday.initSt).2.2 = [Workday.Call.workerSearch] := by
  unfold Workday.get_user_context Workday.initSt
  dsimp only
  cases b.workerSearch with
  | error w => rfl
  | ok payload =>
    dsimp only
    split
    · split
      · rfl
      · split
        · rfl
        · split
          · rfl
          · split <;> rfl
    · rfl

theorem get_user_context_cached (b : Workday.Backend) (ctx : Workday.WorkdayUserContext) :
    Workday.get_user_context b ⟨some ctx⟩ = (.ok ctx, ⟨some ctx⟩, []) := rfl

theorem get_user_context_ok_state (b : Workday.Backend)
    (ctx : Workday.WorkdayUserContext) (st1 : Workday.ClientSt)
    (calls : List Workday.Call)
    (h : Workday.get_user_context b Workday.initSt = (.ok ctx, st1, calls)) :
    st1 = ⟨some ctx⟩ ∧ ctx.worker_id ≠ "" ∧ ctx.workday_id ≠ "" := by
  unfold Workday.get_user_context Workday.initSt at h
  dsimp only at h
  cases hw : b.workerSearch with
  | error w => rw [hw] at h; simp at h
  | ok payload =>
    rw [hw] at h
    dsimp only at h
    split at h
    · split at h
      · simp at h
      · split at h
        · simp at h
        · split at h
          · simp at h
          · split at h
            · rename_i entry worker_id workday_id htr
              simp only [Prod.mk.injEq, Except.ok.injEq] at h
              obtain ⟨hctx, hst, _⟩ := h
              subst hctx
              simp only [Bool.and_eq_true] at htr
              exact ⟨hst.symm, pyStr_ne_empty_of_truthy _ htr.1,
                pyStr_ne_empty_of_truthy _ htr.2⟩
            · simp at h
    · simp at h

theorem get_user_context_error_state (b : Workday.Backend)
    (e : PyErr) (st1 : Workday.ClientSt) (calls : List Workday.Call)
    (h : Workday.get_user_context b Workday.initSt = (.error e, st1, calls)) :
    st1 = Workday.initSt := by
  unfold Workday.get_user_context Workday.initSt at h
  dsimp only at h
  cases hw : b.workerSearch with
  | error w =>
    rw [hw] at h
    simp only [Prod.mk.injEq] at h
    exact h.2.1.symm
  | ok payload =>
    rw [hw] at h
    dsimp only at h
    split at h
    · split at h
      · simp only [Prod.mk.injEq] at h
        exact h.2.1.symm
      · split at h
        · simp only [Prod.mk.injEq] at h
          exact h.2.1.symm
        · split at h
          · simp only [Prod.mk.injEq] at h
            exact h.2.1.symm
          · split at h
            · simp at h
            · simp only [Prod.mk.injEq] at h
              exact h.2.1.symm
    · simp only [Prod.mk.injEq] at h
      exact h.2.1.symm

end HRAgent

namespace HRAgent

/-- A concrete backend environment whose worker-search report resolves to the
context `("jdoe", "WID-1")`; used by the witnesses below. -/
def sampleBackend : Workday.Backend where
  workerSearch := .ok (.obj [("Report_Entry",
    .arr [.obj [("Current_User", .str "jdoe"), ("workdayID", .str "WID-1")]])])
  leaveBalances := .ok (.obj [("data", .arr [])])
  eligibleAbsenceTypes := .ok (.obj [("data", .arr [])])
  leavesOfAbsence := .ok (.obj [("data", .arr [])])
  timeOffDetails := .ok (.obj [("data", .arr [])])
  requestTimeOff := .ok (.obj [])
  searchContent := .ok (.obj [("data", .arr [])])
  contentLessons := fun _ => .ok (.obj [("data", .arr [])])

/-- C5: on one client instance the first identity-resolution call issues
exactly one backend lookup (the worker-search report call), and any
subsequent call on the same instance issues zero backend calls and returns a
result identical to the first call's result. -/
theorem get_user_context_single_flight (b : Workday.Backend) :
    (Workday.get_user_context b Workday.initSt).2.2 = [Workday.Call.workerSearch] ∧
    (∀ ctx st1 calls,
      Workday.get_user_context b Workday.initSt = (.ok ctx, st1, calls) →
      Workday.get_user_context b st1 = (.ok ctx, st1, [])) := by
  refine ⟨get_user_context_fresh_calls b, ?_⟩
  intro ctx st1 calls h
  obtain ⟨hst, _, _⟩ := get_user_context_ok_state b ctx st1 calls h
  subst hst
  exact get_user_context_cached b ctx

/-- Witness for C5 at the sample backend: one lookup call on the first
resolution, none on the second, identical result. -/
theorem get_user_context_single_flight_witness :
    (Workday.get_user_context sampleBackend Workday.initSt).2.2 =
      [Workday.Call.workerSearch] ∧
    Workday.get_user_context sampleBackend ⟨some ⟨"jdoe", "WID-1"⟩⟩ =
      (.ok ⟨"jdoe", "WID-1"⟩, ⟨some ⟨"jdoe", "WID-1"⟩⟩, []) := by
  have h := get_user_context_single_flight sampleBackend
  exact ⟨h.1, h.2 ⟨"jdoe", "WID-1"⟩ ⟨some ⟨"jdoe", "WID-1"⟩⟩
    [Workday.Call.workerSearch] rfl⟩

/-- C6: a cached subject context always has non-empty identifier strings and
is exactly the returned context; on any failure the cache stays unset; a
failing lookup, an empty or absent `Report_Entry` collection, and identifier
fields that are falsy under both accepted casings each produce an error (and
hence leave the cache unset). -/
theorem get_user_context_invariant (b : Workday.Backend) :
    (∀ ctx st1 calls,
      Workday.get_user_context b Workday.initSt = (.ok ctx, st1, calls) →
      ctx.worker_id ≠ "" ∧ ctx.workday_id ≠ "" ∧ st1 = ⟨some ctx⟩) ∧
    (∀ e st1 calls,
      Workday.get_user_context b Workday.initSt = (.error e, st1, calls) →
      st1 = Workday.initSt) ∧
    (∀ w, b.workerSearch = .error w →
      Workday.get_user_context b Workday.initSt =
        (.error (.workday w), Workday.initSt, [.workerSearch])) ∧
    (∀ payload, b.workerSearch = .ok payload →
      (Workday.collectionEntries payload).truthy = false →
      Workday.get_user_context b Workday.initSt =
        (.error (.workday ⟨"Workday worker search report returned no entries", none, .null⟩),
          Workday.initSt, [.workerSearch])) ∧
    (∀ kvs ekvs rest, b.workerSearch = .ok (.obj kvs) →
      lookupKey kvs "Report_Entry" = some (.arr (.obj ekvs :: rest)) →
      ((((lookupKey ekvs "Current_User").getD .null).truthy = false ∧
        ((lookupKey ekvs "current_user").getD .null).truthy = false) ∨
       (((lookupKey ekvs "workdayID").getD .null).truthy = false ∧
        ((lookupKey ekvs "workdayId").getD .null).truthy = false)) →
      Workday.get_user_context b Workday.initSt =
        (.error (.workday ⟨"Worker search response did not include expected identifiers",
          none, .obj ekvs⟩), Workday.initSt, [.workerSearch])) := by
  refine ⟨?_, ?_, ?_, ?_, ?_⟩
  · intro ctx st1 calls h
    obtain ⟨hst, h1, h2⟩ := get_user_context_ok_state b ctx st1 calls h
    exact ⟨h1, h2, hst⟩
  · exact fun e st1 calls h => get_user_context_error_state b e st1 calls h
  · intro w hw
    unfold Workday.get_user_context Workday.initSt
    rw [hw]
  · intro payload hw hfalse
    unfold Workday.get_user_context Workday.initSt
    rw [hw]
    dsimp only
    rw [hfalse]
    rfl
  · intro kvs ekvs rest hw hre hfalsy
    unfold Workday.get_user_context Workday.initSt
    rw [hw]
    dsimp only
    rw [show Workday.collectionEntries (.obj kvs) = .arr (.obj ekvs :: rest) by
      simp [Workday.collectionEntries, hre]]
    rw [show (JE.arr (.obj ekvs :: rest)).truthy = true by simp [JE.truthy]]
    simp only [if_true, pyIndex0, pyOrE, pyGet]
    rcases hfalsy with ⟨h1, h2⟩ | ⟨h1, h2⟩
    · rw [h1]
      simp only [Bool.false_eq_true, if_false]
      rcases Bool.eq_false_or_eq_true (((lookupKey ekvs "workdayID").getD .null).truthy)
          with hid | hid <;> rw [hid] <;> simp [h2]
    · rcases Bool.eq_false_or_eq_true (((lookupKey ekvs "Current_User").getD .null).truthy)
          with hcu | hcu <;> rw [hcu] <;> rw [h1] <;> simp [h2]

/-- Witness for C6 at the sample backend. -/
theorem get_user_context_invariant_witness :
    ("jdoe" : String) ≠ "" ∧ ("WID-1" : String) ≠ "" ∧
      (⟨some ⟨"jdoe", "WID-1"⟩⟩ : Workday.ClientSt) = ⟨some ⟨"jdoe", "WID-1"⟩⟩ := by
  have h := (get_user_context_invariant sampleBackend).1
  exact h ⟨"jdoe", "WID-1"⟩ ⟨some ⟨"jdoe", "WID-1"⟩⟩ [.workerSearch] rfl

end HRAgent

namespace HRAgent

/-- C7: for every operation (any handler body) and any request whose bearer
token extraction yields nothing or the empty token, the response is the 401
Unauthorized envelope and no backend call is issued (the handler — and hence
the client construction — is never reached). -/
theorem missing_token_unauthorized (req : App.Request) (b : Workday.Backend)
    (handler : App.Handler)
    (h : App._extract_bearer_token req = none ∨ App._extract_bearer_token req = some "") :
    App._handle_request req b handler = (⟨401, App.unauthorizedBody⟩, []) := by
  rcases h with h | h <;> simp [App._handle_request, h]

/-- Witness for C7: a headerless request against the book-leave handler. -/
theorem missing_token_unauthorized_witness :
    App._handle_request ⟨[], .ok .null⟩ sampleBackend App.book_leave_handler =
      (⟨401, App.unauthorizedBody⟩, []) :=
  missing_token_unauthorized ⟨[], .ok .null⟩ sampleBackend App.book_leave_handler
    (Or.inl rfl)

/-- C10: bearer-token extraction accepts the header under both casings (the
two spellings of the header name are interchangeable); a header value whose
lower-cased form does not start with `"bearer "` yields no token; when it
does, the token is the remainder after the seven-character prefix, stripped —
so a remainder that is empty or only whitespace strips to the empty token —
and an extraction result of nothing or the empty token is answered with the
401 envelope and no backend call, exactly like an absent header. -/
theorem bearer_token_extraction_spec :
    (∀ (s : String) (body : Except Unit JE),
      App._extract_bearer_token ⟨[("Authorization", s)], body⟩ =
        App._extract_bearer_token ⟨[("authorization", s)], body⟩) ∧
    (∀ (s : String) (body : Except Unit JE),
      strStarts (pyLowerStr s) "bearer " = false →
      App._extract_bearer_token ⟨[("Authorization", s)], body⟩ = none) ∧
    (∀ (s : String) (body : Except Unit JE),
      strStarts (pyLowerStr s) "bearer " = true → s ≠ "" →
      App._extract_bearer_token ⟨[("Authorization", s)], body⟩ =
        some (pyStrip (strDropChars s 7))) ∧
    (∀ (req : App.Request) (b : Workday.Backend) (handler : App.Handler),
      App._extract_bearer_token req = none ∨ App._extract_bearer_token req = some "" →
      App._handle_request req b handler = (⟨401, App.unauthorizedBody⟩, [])) := by
  refine ⟨?_, ?_, ?_, ?_⟩
  · intro s body
    by_cases h : s = "" <;>
      simp [App._extract_bearer_token, App.headerGet, h]
  · intro s body hp
    by_cases h : s = "" <;>
      simp [App._extract_bearer_token, App.headerGet, h, hp]
  · intro s body hp h
    simp [App._extract_bearer_token, App.headerGet, h, hp]
  · intro req b handler h
    rcases h with h | h <;> simp [App._handle_request, h]

/-- Witness for C10 at concrete headers: mixed-case prefix accepted under
the lower-case header name, whitespace-only remainder stripped to the empty
token and answered with 401. -/
theorem bearer_token_extraction_spec_witness :
    App._extract_bearer_token ⟨[("Authorization", "BEARER abc")], .ok .null⟩ =
      App._extract_bearer_token ⟨[("authorization", "BEARER abc")], .ok .null⟩ ∧
    App._extract_bearer_token ⟨[("Authorization", "Token abc")], .ok .null⟩ = none ∧
    App._extract_bearer_token ⟨[("Authorization", "Bearer    ")], .ok .null⟩ = some "" ∧
    App._handle_request ⟨[("Authorization", "Bearer    ")], .ok .null⟩ sampleBackend
      App.book_leave_handler = (⟨401, App.unauthorizedBody⟩, []) := by
  have h := bearer_token_extraction_spec
  refine ⟨h.1 "BEARER abc" (.ok .null), h.2.1 "Token abc" (.ok .null) (by decide), ?_, ?_⟩
  · have h3 := h.2.2.1 "Bearer    " (.ok .null) (by decide) (by decide)
    rw [h3]
    rfl
  · exact h.2.2.2 _ sampleBackend App.book_leave_handler (Or.inr (by rfl))
end HRAgent

namespace HRAgent

theorem data_normalizer_missing_key (recf : JE → Except PyErr JE) (key : String)
    (kvs : List (String × JE)) (h : lookupKey kvs key = none) :
    ((pyIter (Workday.collectionItems key (.obj kvs))).bind
      (fun xs => xs.mapM recf)) = .error .typeError := by
  have hcoll : Workday.collectionItems key (.obj kvs) = .null := by
    simp [Workday.collectionItems, h]
  rw [hcoll]
  rfl

theorem data_normalizer_non_iterable (recf : JE → Except PyErr JE) (key : String)
    (kvs : List (String × JE)) (d : Dec) (h : lookupKey kvs key = some (.num d)) :
    ((pyIter (Workday.collectionItems key (.obj kvs))).bind
      (fun xs => xs.mapM recf)) = .error .typeError := by
  have hcoll : Workday.collectionItems key (.obj kvs) = .num d := by
    simp [Workday.collectionItems, h]
  rw [hcoll]
  rfl

/-- C2 counterexample: a backend payload that IS a dict but has no `"data"`
key makes the leave-balance normalizer raise `TypeError` (the comprehension
iterates over `None`); it does not return the empty list the claim
promises. -/
theorem leave_balances_missing_key_faults :
    Workday.get_leave_balances (.ok (.obj [])) = .error .typeError ∧
    Workday.get_leave_balances (.ok (.obj [])) ≠ .ok [] :=
  ⟨rfl, fun h => nomatch h⟩

/-- C2 amended: when the backend payload is not a dict, every normalizer
yields the empty sequence; but when the payload is a dict whose collection
key (`"data"`, or `"Report_Entry"` for learning assignments) is absent or
bound to a non-iterable value, the nine list normalizers raise `TypeError`
instead, and the content-lessons accessor returns the raw looked-up value
(`None` when the key is absent) rather than an empty sequence. -/
theorem normalizers_defensive_amended :
    (∀ payload : JE, payload.isObj = false →
      Workday.get_leave_balances (.ok payload) = .ok [] ∧
      Workday.get_eligible_absence_types (.ok payload) = .ok [] ∧
      Workday.get_leaves_of_absence (.ok payload) = .ok [] ∧
      Workday.get_time_off_details (.ok payload) = .ok [] ∧
      Workday.get_time_off_entries (.ok payload) = .ok [] ∧
      Workday.get_inbox_tasks (.ok payload) = .ok [] ∧
      Workday.get_direct_reports (.ok payload) = .ok [] ∧
      Workday.get_pay_slips (.ok payload) = .ok [] ∧
      Workday.get_learning_assignments (.ok payload) = .ok [] ∧
      Workday.get_content_lessons (.ok payload) = .ok (.arr [])) ∧
    (∀ kvs, lookupKey kvs "data" = none →
      Workday.get_leave_balances (.ok (.obj kvs)) = .error .typeError ∧
      Workday.get_eligible_absence_types (.ok (.obj kvs)) = .error .typeError ∧
      Workday.get_leaves_of_absence (.ok (.obj kvs)) = .error .typeError ∧
      Workday.get_time_off_details (.ok (.obj kvs)) = .error .typeError ∧
      Workday.get_time_off_entries (.ok (.obj kvs)) = .error .typeError ∧
      Workday.get_inbox_tasks (.ok (.obj kvs)) = .error .typeError ∧
      Workday.get_direct_reports (.ok (.obj kvs)) = .error .typeError ∧
      Workday.get_pay_slips (.ok (.obj kvs)) = .error .typeError ∧
      Workday.get_content_lessons (.ok (.obj kvs)) = .ok .null) ∧
    (∀ kvs, lookupKey kvs "Report_Entry" = none →
      Workday.get_learning_assignments (.ok (.obj kvs)) = .error .typeError) ∧
    (∀ kvs d, lookupKey kvs "data" = some (.num d) →
      Workday.get_leave_balances (.ok (.obj kvs)) = .error .typeError ∧
      Workday.get_eligible_absence_types (.ok (.obj kvs)) = .error .typeError ∧
      Workday.get_leaves_of_absence (.ok (.obj kvs)) = .error .typeError ∧
      Workday.get_time_off_details (.ok (.obj kvs)) = .error .typeError ∧
      Workday.get_time_off_entries (.ok (.obj kvs)) = .error .typeError ∧
      Workday.get_inbox_tasks (.ok (.obj kvs)) = .error .typeError ∧
      Workday.get_direct_reports (.ok (.obj kvs)) = .error .typeError ∧
      Workday.get_pay_slips (.ok (.obj kvs)) = .error .typeError ∧
      Workday.get_content_lessons (.ok (.obj kvs)) = .ok (.num d)) ∧
    (∀ kvs d, lookupKey kvs "Report_Entry" = some (.num d) →
      Workday.get_learning_assignments (.ok (.obj kvs)) = .error .typeError) := by
  refine ⟨?_, ?_, ?_, ?_, ?_⟩
  · intro payload h
    cases payload with
    | obj kvs => simp [JE.isObj] at h
    | null => exact ⟨rfl, rfl, rfl, rfl, rfl, rfl, rfl, rfl, rfl, rfl⟩
    | bool b => exact ⟨rfl, rfl, rfl, rfl, rfl, rfl, rfl, rfl, rfl, rfl⟩
    | num d => exact ⟨rfl, rfl, rfl, rfl, rfl, rfl, rfl, rfl, rfl, rfl⟩
    | str s => exact ⟨rfl, rfl, rfl, rfl, rfl, rfl, rfl, rfl, rfl, rfl⟩
    | arr l => exact ⟨rfl, rfl, rfl, rfl, rfl, rfl, rfl, rfl, rfl, rfl⟩
  · intro kvs h
    refine ⟨data_normalizer_missing_key _ _ _ h, data_normalizer_missing_key _ _ _ h,
      data_normalizer_missing_key _ _ _ h, data_normalizer_missing_key _ _ _ h,
      data_normalizer_missing_key _ _ _ h, data_normalizer_missing_key _ _ _ h,
      data_normalizer_missing_key _ _ _ h, data_normalizer_missing_key _ _ _ h, ?_⟩
    rw [show Workday.get_content_lessons (.ok (.obj kvs)) =
      .ok ((lookupKey kvs "data").getD .null) from rfl, h]
    rfl
  · intro kvs h
    exact data_normalizer_missing_key _ _ _ h
  · intro kvs d h
    refine ⟨data_normalizer_non_iterable _ _ _ _ h, data_normalizer_non_iterable _ _ _ _ h,
      data_normalizer_non_iterable _ _ _ _ h, data_normalizer_non_iterable _ _ _ _ h,
      data_normalizer_non_iterable _ _ _ _ h, data_normalizer_non_iterable _ _ _ _ h,
      data_normalizer_non_iterable _ _ _ _ h, data_normalizer_non_iterable _ _ _ _ h, ?_⟩
    rw [show Workday.get_content_lessons (.ok (.obj kvs)) =
      .ok ((lookupKey kvs "data").getD .null) from rfl, h]
    rfl
  · intro kvs d h
    exact data_normalizer_non_iterable _ _ _ _ h

/-- Witness for amended C2 at a non-dict payload and at an empty dict. -/
theorem normalizers_defensive_amended_witness :
    Workday.get_leave_balances (.ok (.arr [])) = .ok [] ∧
    Workday.get_content_lessons (.ok (.arr [])) = .ok (.arr []) ∧
    Workday.get_learning_assignments (.ok (.obj [])) = .error .typeError ∧
    Workday.get_content_lessons (.ok (.obj [])) = .ok .null := by
  have h1 := (normalizers_defensive_amended.1 (.arr []) rfl)
  have h2 := normalizers_defensive_amended.2.1 [] rfl
  have h3 := normalizers_defensive_amended.2.2.1 [] rfl
  exact ⟨h1.1, h1.2.2.2.2.2.2.2.2.2, h3, h2.2.2.2.2.2.2.2.2⟩

end HRAgent

namespace HRAgent

/-- C9 counterexample: a 304 response (outside 200–299) does NOT raise —
`response.ok` in the requests library is false only for 400..599 — so
`_request` returns the decoded body instead of the typed error the claim
demands. -/
theorem request_304_not_raised :
    Workday._request (.ok ⟨304, "application/json", "\x7b\x7d", some (.obj [])⟩) =
      .ok (.obj []) ∧
    Workday._request (.ok ⟨304, "application/json", "\x7b\x7d", some (.obj [])⟩) ≠
      .error ⟨"Workday request failed (" ++ natStr 304 ++ ")", some 304, .obj []⟩ :=
  ⟨rfl, fun h => nomatch h⟩

/-- C9 amended: `_request` raises the typed `WorkdayError` exactly for
status codes 400..599 — carrying that status code and the decoded body (JSON
when decodable, else the raw text, `None` for an empty no-JSON body) — and
returns the decoded body for every other status; a transport failure raises
without a status code; and the caller-facing envelope uses the carried
status code when it lies in 400..599 and 502 otherwise, surfacing the
message and the payload verbatim under `details`. -/
theorem request_error_spec :
    (∀ r : Workday.HttpResp, 400 ≤ r.status → r.status < 600 →
      Workday._request (.ok r) =
        .error ⟨"Workday request failed (" ++ natStr r.status ++ ")", some r.status,
          Workday.decodeBody r⟩) ∧
    (∀ r : Workday.HttpResp, ¬ (400 ≤ r.status ∧ r.status < 600) →
      Workday._request (.ok r) = .ok (Workday.decodeBody r)) ∧
    (∀ (r : Workday.HttpResp) (j : JE), r.json = some j →
      (strStarts r.content_type "application/json" = true ∨ r.text ≠ "") →
      Workday.decodeBody r = j) ∧
    (∀ r : Workday.HttpResp, r.json = none →
      (strStarts r.content_type "application/json" = true ∨ r.text ≠ "") →
      Workday.decodeBody r = .str r.text) ∧
    (∀ r : Workday.HttpResp,
      ¬ (strStarts r.content_type "application/json" = true ∨ r.text ≠ "") →
      Workday.decodeBody r = .null) ∧
    (∀ msg, Workday._request (.error msg) =
      .error ⟨"Failed to reach Workday: " ++ msg, none, .null⟩) ∧
    (∀ (w : WorkdayErr) (sc : Nat), w.status_code = some sc → 400 ≤ sc → sc < 600 →
      App.workdayErrorResponse w = ⟨sc, .obj [("success", .bool false),
        ("error", .str "WorkdayError"), ("message", .str w.message),
        ("details", w.payload)]⟩) ∧
    (∀ (w : WorkdayErr) (sc : Nat), w.status_code = some sc → ¬ (400 ≤ sc ∧ sc < 600) →
      App.workdayErrorResponse w = ⟨502, .obj [("success", .bool false),
        ("error", .str "WorkdayError"), ("message", .str w.message),
        ("details", w.payload)]⟩) ∧
    (∀ w : WorkdayErr, w.status_code = none →
      App.workdayErrorResponse w = ⟨502, .obj [("success", .bool false),
        ("error", .str "WorkdayError"), ("message", .str w.message),
        ("details", w.payload)]⟩) := by
  refine ⟨?_, ?_, ?_, ?_, ?_, ?_, ?_, ?_, ?_⟩
  · intro r h1 h2
    unfold Workday._request
    dsimp only
    rw [show Workday.response_ok r.status = false by
      simp only [Workday.response_ok, decide_eq_false_iff_not]; omega]
    simp
  · intro r h
    unfold Workday._request
    dsimp only
    rw [show Workday.response_ok r.status = true by
      simp only [Workday.response_ok, decide_eq_true_eq]; omega]
    simp
  · intro r j hj hc
    unfold Workday.decodeBody
    rw [if_pos hc, hj]
  · intro r hj hc
    unfold Workday.decodeBody
    rw [if_pos hc, hj]
  · intro r hc
    unfold Workday.decodeBody
    rw [if_neg hc]
  · intro msg
    rfl
  · intro w sc hsc h1 h2
    unfold App.workdayErrorResponse
    rw [hsc]
    simp only
    rw [if_pos ⟨h1, h2⟩]
  · intro w sc hsc h
    unfold App.workdayErrorResponse
    rw [hsc]
    simp only
    rw [if_neg h]
  · intro w hw
    unfold App.workdayErrorResponse
    rw [hw]

/-- Witness for amended C9: a 503 JSON error body raises with status and
payload, a 304 returns the body, and the envelope maps 503 through and a
missing status to 502. -/
theorem request_error_spec_witness :
    Workday._request (.ok ⟨503, "application/json", "x", some (.obj [("err", .str "down")])⟩) =
      .error ⟨"Workday request failed (" ++ natStr 503 ++ ")", some 503,
        .obj [("err", .str "down")]⟩ ∧
    Workday._request (.ok ⟨304, "", "", none⟩) = .ok .null ∧
    App.workdayErrorResponse ⟨"boom", some 503, .str "payload"⟩ =
      ⟨503, .obj [("success", .bool false), ("error", .str "WorkdayError"),
        ("message", .str "boom"), ("details", .str "payload")]⟩ ∧
    App.workdayErrorResponse ⟨"net", none, .null⟩ =
      ⟨502, .obj [("success", .bool false), ("error", .str "WorkdayError"),
        ("message", .str "net"), ("details", .null)]⟩ := by
  refine ⟨?_, ?_, ?_, ?_⟩
  · have h := request_error_spec.1 ⟨503, "application/json", "x", some (.obj [("err", .str "down")])⟩
      (by decide) (by decide)
    rw [h]
    rfl
  · have h := request_error_spec.2.1 ⟨304, "", "", none⟩ (by decide)
    rw [h]
    rfl
  · exact request_error_spec.2.2.2.2.2.2.1 ⟨"boom", some 503, .str "payload"⟩ 503 rfl
      (by decide) (by decide)
  · exact request_error_spec.2.2.2.2.2.2.2.2 ⟨"net", none, .null⟩ rfl

end HRAgent

namespace HRAgent

theorem except_bind_ok {α β ε : Type} (a : α) (f : α → Except ε β) :
    (Except.ok a : Except ε α) >>= f = f a := rfl

theorem except_bind_error {α β ε : Type} (e : ε) (f : α → Except ε β) :
    (Except.error e : Except ε α) >>= f = .error e := rfl

theorem parseDate_some_ne_empty {s : String} {d : Date} (h : parseDate s = some d) :
    s ≠ "" := by
  rintro rfl
  exact nomatch h

/-- C4: for Book Leave, an `endDate` that parses to a calendar date strictly
earlier than `startDate` produces the 400 validation envelope with the
source's message, and the call log is empty — neither identity resolution
nor the time-off submission is issued. -/
theorem book_leave_end_before_start (req : App.Request) (b : Workday.Backend)
    (tok : String) (kvs : List (String × JE)) (s e : String) (ds de : Date) (tid : JE)
    (htok : App._extract_bearer_token req = some tok) (htok2 : tok ≠ "")
    (hbody : req.body = .ok (.obj kvs))
    (hs : lookupKey kvs "startDate" = some (.str s))
    (he : lookupKey kvs "endDate" = some (.str e))
    (htid : lookupKey kvs "timeOffTypeId" = some tid) (htidT : tid.truthy = true)
    (hps : parseDate s = some ds) (hpe : parseDate e = some de)
    (hlt : dateLexLt de.val ds.val) :
    App.book_leave req b =
      (⟨400, .obj [("success", .bool false), ("error", .str "BadRequest"),
        ("message", .str "endDate cannot be earlier than startDate")]⟩, []) := by
  have hs0 : s ≠ "" := parseDate_some_ne_empty hps
  have he0 : e ≠ "" := parseDate_some_ne_empty hpe
  unfold App.book_leave App._handle_request
  rw [htok]
  dsimp only
  rw [if_neg htok2]
  unfold App.book_leave_handler
  rw [hbody]
  dsimp only
  simp only [pyGet, pyGetD, hs, he, htid, Option.getD_some]
  rw [show (!(JE.str s).truthy || !(JE.str e).truthy || !tid.truthy) = false by
    rw [htidT]; simp [JE.truthy, hs0, he0]]
  simp only [Bool.false_eq_true, if_false]
  rw [show _create_days_array (.str s) (.str e)
      (pyStr ((lookupKey kvs "quantity").getD (.str "8")))
      ((lookupKey kvs "unit").getD (.str "Hours"))
      ((lookupKey kvs "reason").getD (.str "Time off request")) tid =
      .error (.valueError "endDate cannot be earlier than startDate") by
    unfold _create_days_array strptimeWrapped
    dsimp only
    rw [hps, hpe]
    dsimp only
    rw [except_bind_ok, except_bind_ok]
    rw [show dateLtB de.val ds.val = true from decide_eq_true hlt]
    rfl]

/-- Witness for C4: a concrete request whose end date precedes its start
date yields the 400 envelope without backend calls. -/
theorem book_leave_end_before_start_witness :
    App.book_leave ⟨[("Authorization", "Bearer tok")],
        .ok (.obj [("startDate", .str "2025-02-12"), ("endDate", .str "2025-02-10"),
          ("timeOffTypeId", .str "VAC")])⟩ sampleBackend =
      (⟨400, .obj [("success", .bool false), ("error", .str "BadRequest"),
        ("message", .str "endDate cannot be earlier than startDate")]⟩, []) := by
  exact book_leave_end_before_start _ sampleBackend "tok" _ "2025-02-12" "2025-02-10"
    ⟨⟨2025, 2, 12⟩, by decide⟩ ⟨⟨2025, 2, 10⟩, by decide⟩ (.str "VAC")
    rfl (by decide) rfl rfl rfl rfl (by decide) (by decide) (by decide) (by decide)

end HRAgent

namespace HRAgent

/-- C1: over valid inputs (both dates parse, start ≤ end), the day-entry
expansion returns one entry per calendar day of the inclusive range — the
produced list enumerates exactly the dates between the endpoints (membership
characterisation), has length `end - start + 1` in days, and is strictly
increasing (hence duplicate-free) — and every entry fixes `start` at
08:00:00.000Z and `end` at 17:00:00.000Z on its own date, with
`dailyQuantity = "8"` when the unit lower-cases to `"days"` and the
requested quantity string otherwise, for every day. -/
theorem create_days_array_spec (s e : String) (ds de : Date) (q u : String) (r tid : JE)
    (hps : parseDate s = some ds) (hpe : parseDate e = some de)
    (hle : dateLexLe ds.val de.val) :
    (_create_days_array (.str s) (.str e) q (.str u) r tid =
      .ok ((_date_range ds de).map fun day =>
        { date := isoDate day.val ++ "T08:00:00.000Z"
          start := isoDate day.val ++ "T08:00:00.000Z"
          end_ := isoDate day.val ++ "T17:00:00.000Z"
          dailyQuantity := if pyLowerStr u = "days" then "8" else q
          comment := r
          timeOffType_id := tid })) ∧
    (∀ d : Date, d ∈ _date_range ds de ↔ (dateLexLe ds.val d.val ∧ dateLexLe d.val de.val)) ∧
    ((_date_range ds de).length = rataDie de.val + 1 - rataDie ds.val) ∧
    List.Pairwise (fun a b : Date => dateLexLt a.val b.val) (_date_range ds de) := by
  refine ⟨?_, ?_, ?_, ?_⟩
  · unfold _create_days_array strptimeWrapped
    dsimp only
    rw [hps, hpe]
    dsimp only
    rw [except_bind_ok, except_bind_ok]
    rw [show dateLtB de.val ds.val = false from
      decide_eq_false (dateLex_not_lt_of_le hle)]
    simp only [Bool.false_eq_true, if_false]
    rw [show pyLowerJE (.str u) = .ok (pyLowerStr u) from rfl, except_bind_ok]
    rfl
  · exact fun d => dateRangeGo_mem de _ ds (le_refl _) d
  · exact dateRangeGo_length de _ ds (le_refl _)
  · exact dateRangeGo_pairwise de _ ds (le_refl _)

/-- Witness for C1 at the claim's concrete instance: 2025-02-10..2025-02-12
with unit Hours and quantity 4 gives exactly the three entries with
`dailyQuantity = "4"`, and the range facts evaluate as stated. -/
theorem create_days_array_spec_witness :
    (_create_days_array (.str "2025-02-10") (.str "2025-02-12") "4" (.str "Hours")
        (.str "Family trip") (.str "VAC")) =
      .ok [{ date := "2025-02-10T08:00:00.000Z", start := "2025-02-10T08:00:00.000Z",
             end_ := "2025-02-10T17:00:00.000Z", dailyQuantity := "4",
             comment := .str "Family trip", timeOffType_id := .str "VAC" },
           { date := "2025-02-11T08:00:00.000Z", start := "2025-02-11T08:00:00.000Z",
             end_ := "2025-02-11T17:00:00.000Z", dailyQuantity := "4",
             comment := .str "Family trip", timeOffType_id := .str "VAC" },
           { date := "2025-02-12T08:00:00.000Z", start := "2025-02-12T08:00:00.000Z",
             end_ := "2025-02-12T17:00:00.000Z", dailyQuantity := "4",
             comment := .str "Family trip", timeOffType_id := .str "VAC" }] ∧
    ((⟨⟨2025, 2, 11⟩, by decide⟩ : Date) ∈
      _date_range ⟨⟨2025, 2, 10⟩, by decide⟩ ⟨⟨2025, 2, 12⟩, by decide⟩) ∧
    (_date_range (⟨⟨2025, 2, 10⟩, by decide⟩ : Date) ⟨⟨2025, 2, 12⟩, by decide⟩).length = 3 := by
  have h := create_days_array_spec "2025-02-10" "2025-02-12"
    ⟨⟨2025, 2, 10⟩, by decide⟩ ⟨⟨2025, 2, 12⟩, by decide⟩ "4" "Hours"
    (.str "Family trip") (.str "VAC") (by decide) (by decide) (by decide)
  refine ⟨?_, ?_, ?_⟩
  · rw [h.1]
    rfl
  · exact (h.2.1 ⟨⟨2025, 2, 11⟩, by decide⟩).mpr ⟨by decide, by decide⟩
  · rw [h.2.2.1]
    decide

end HRAgent

namespace HRAgent

theorem except_bind_pure {α β ε : Type} (a : α) (f : α → Except ε β) :
    (pure a : Except ε α) >>= f = f a := rfl

theorem pyFloatOfJE_error_shape (v : JE) (e : PyErr) (h : pyFloatOfJE v = .error e) :
    (∃ msg, e = .valueError msg) ∨ e = .typeError := by
  cases v with
  | num d => exact nomatch h
  | bool b => cases b <;> exact nomatch h
  | str s =>
    dsimp only [pyFloatOfJE] at h
    rcases hp : parsePyFloat s with _ | q <;> rw [hp] at h
    · exact Or.inl ⟨_, (Except.error.inj h).symm⟩
    · exact nomatch h
  | null => exact Or.inr (Except.error.inj h).symm
  | arr l => exact Or.inr (Except.error.inj h).symm
  | obj kvs => exact Or.inr (Except.error.inj h).symm

/-- The skip-semantics accumulation the spec describes for the echoed per-day
list: a dict entry whose `dailyQuantity` parses as a float contributes its
value, any other dict entry contributes nothing. -/
def skipFold : List JE → Dec → Dec
  | [], acc => acc
  | day :: rest, acc =>
    skipFold rest
      (match day with
       | .obj kvs =>
         (match pyFloatOfJE ((lookupKey kvs "dailyQuantity").getD (.num ⟨0, 0⟩)) with
          | .ok q => acc.add q
          | .error _ => acc)
       | _ => acc)

theorem foldlM_booked_all_obj (l : List JE) (h : ∀ x ∈ l, x.isObj = true) :
    ∀ acc : Dec, l.foldlM App.booked_day_step acc = .ok (skipFold l acc) := by
  induction l with
  | nil => intro acc; rfl
  | cons x xs ih =>
    intro acc
    have hx : x.isObj = true := h x (List.mem_cons_self x xs)
    have hxs : ∀ y ∈ xs, y.isObj = true := fun y hy => h y (List.mem_cons_of_mem x hy)
    cases x with
    | obj kvs =>
      show App.booked_day_step acc (.obj kvs) >>= (fun a => xs.foldlM App.booked_day_step a) =
        .ok (skipFold (.obj kvs :: xs) acc)
      have hstep : App.booked_day_step acc (.obj kvs) =
          (match pyFloatOfJE ((lookupKey kvs "dailyQuantity").getD (.num ⟨0, 0⟩)) with
           | .ok q => .ok (acc.add q)
           | .error (.valueError _) => .ok acc
           | .error .typeError => .ok acc
           | .error e => .error e) := rfl
      rw [hstep]
      rcases hpf : pyFloatOfJE ((lookupKey kvs "dailyQuantity").getD (.num ⟨0, 0⟩))
        with err | q
      · rcases pyFloatOfJE_error_shape _ _ hpf with ⟨msg, hmsg⟩ | hmsg <;> subst hmsg <;>
          · simp only [hpf, except_bind_ok]
            rw [ih hxs]
            simp [skipFold, hpf]
      · simp only [hpf, except_bind_ok]
        rw [ih hxs]
        simp [skipFold, hpf]
    | null => exact nomatch hx
    | bool b => exact nomatch hx
    | num d => exact nomatch hx
    | str s => exact nomatch hx
    | arr l2 => exact nomatch hx

theorem foldlM_local_all_parse (days : List DayEntry)
    (h : ∀ d ∈ days, (parsePyFloat d.dailyQuantity).isSome = true) :
    ∀ acc : Dec, days.foldlM App.local_day_step acc =
      .ok (days.foldl (fun acc d => acc.add ((parsePyFloat d.dailyQuantity).getD ⟨0, 0⟩))
        acc) := by
  induction days with
  | nil => intro acc; rfl
  | cons d rest ih =>
    intro acc
    have hd := h d (List.mem_cons_self d rest)
    have hrest : ∀ x ∈ rest, (parsePyFloat x.dailyQuantity).isSome = true :=
      fun x hx => h x (List.mem_cons_of_mem d hx)
    rcases hq : parsePyFloat d.dailyQuantity with _ | q
    · rw [hq] at hd; exact nomatch hd
    · show App.local_day_step acc d >>= (fun a => rest.foldlM App.local_day_step a) = _
      have hstep : App.local_day_step acc d =
          (match parsePyFloat d.dailyQuantity with
           | some q => pure (acc.add q)
           | none => .error (.valueError
               ("could not convert string to float: \x27" ++ d.dailyQuantity ++ "\x27"))) := by
        unfold App.local_day_step
        dsimp only [pyFloatOfJE]
        rcases parsePyFloat d.dailyQuantity with _ | q2 <;> rfl
      rw [hstep]
      simp only [hq, except_bind_pure]
      rw [ih hrest]
      simp [hq]

theorem foldlM_local_first_bad (pre : List DayEntry) (d : DayEntry)
    (post : List DayEntry)
    (hpre : ∀ x ∈ pre, (parsePyFloat x.dailyQuantity).isSome = true)
    (hbad : parsePyFloat d.dailyQuantity = none) :
    ∀ acc : Dec, (pre ++ d :: post).foldlM App.local_day_step acc =
      .error (.valueError
        ("could not convert string to float: \x27" ++ d.dailyQuantity ++ "\x27")) := by
  induction pre with
  | nil =>
    intro acc
    show App.local_day_step acc d >>= (fun a => post.foldlM App.local_day_step a) = _
    have hstep : App.local_day_step acc d =
        (match parsePyFloat d.dailyQuantity with
         | some q => pure (acc.add q)
         | none => .error (.valueError
             ("could not convert string to float: \x27" ++ d.dailyQuantity ++ "\x27"))) := by
      unfold App.local_day_step
      dsimp only [pyFloatOfJE]
      rcases parsePyFloat d.dailyQuantity with _ | q2 <;> rfl
    rw [hstep]
    simp only [hbad, except_bind_error]
  | cons x rest ih =>
    intro acc
    have hx := hpre x (List.mem_cons_self x rest)
    have hrest : ∀ y ∈ rest, (parsePyFloat y.dailyQuantity).isSome = true :=
      fun y hy => hpre y (List.mem_cons_of_mem x hy)
    rcases hq : parsePyFloat x.dailyQuantity with _ | q
    · rw [hq] at hx; exact nomatch hx
    · show App.local_day_step acc x >>=
        (fun a => (rest ++ d :: post).foldlM App.local_day_step a) = _
      have hstep : App.local_day_step acc x =
          (match parsePyFloat x.dailyQuantity with
           | some q => pure (acc.add q)
           | none => .error (.valueError
               ("could not convert string to float: \x27" ++ x.dailyQuantity ++ "\x27"))) := by
        unfold App.local_day_step
        dsimp only [pyFloatOfJE]
        rcases parsePyFloat x.dailyQuantity with _ | q2 <;> rfl
      rw [hstep]
      simp only [hq, except_bind_pure]
      exact ih hrest _

end HRAgent

namespace HRAgent

/-- C3 counterexample: with `quantity="abc"`, `unit=Hours` and a backend
whose submission response is a dict without a `days` echo, Book Leave falls
back to summing the locally constructed day entries and `float("abc")`
raises an uncaught `ValueError` — the operation fails with a 400 envelope
instead of skipping the unparsable entry as the claim states. -/
theorem book_leave_fallback_unparsable_400 :
    App.book_leave ⟨[("Authorization", "Bearer tok")],
        .ok (.obj [("startDate", .str "2025-02-10"), ("endDate", .str "2025-02-10"),
          ("timeOffTypeId", .str "VAC"), ("quantity", .str "abc"),
          ("unit", .str "Hours")])⟩ sampleBackend =
      (⟨400, .obj [("success", .bool false), ("error", .str "BadRequest"),
        ("message", .str "could not convert string to float: \x27abc\x27")]⟩,
       [.workerSearch, .requestTimeOff]) := rfl

/-- C3 amended: the reported `totalQuantity` is computed from the backend's
echoed per-day list when that list is present and truthy (summing
`dailyQuantity` with unparsable dict entries skipped, never failing over
dict entries), and otherwise from the locally constructed day entries —
where the sum succeeds only when every local `dailyQuantity` parses, and an
unparsable one raises an uncaught `ValueError` that fails the operation. -/
theorem book_leave_total_quantity_amended :
    (∀ l : List JE, (∀ x ∈ l, x.isObj = true) →
      App.sum_booked_days (.arr l) = .ok (skipFold l ⟨0, 0⟩)) ∧
    (∀ days : List DayEntry, (∀ d ∈ days, (parsePyFloat d.dailyQuantity).isSome = true) →
      App.sum_local_days days =
        .ok (days.foldl (fun acc d => acc.add ((parsePyFloat d.dailyQuantity).getD ⟨0, 0⟩))
          ⟨0, 0⟩)) ∧
    (∀ (pre : List DayEntry) (d : DayEntry) (post : List DayEntry),
      (∀ x ∈ pre, (parsePyFloat x.dailyQuantity).isSome = true) →
      parsePyFloat d.dailyQuantity = none →
      App.sum_local_days (pre ++ d :: post) =
        .error (.valueError
          ("could not convert string to float: \x27" ++ d.dailyQuantity ++ "\x27"))) ∧
    (∀ (rkvs : List (String × JE)) (days_arr : List DayEntry) (dje : JE),
      lookupKey rkvs "days" = some dje → dje.truthy = true →
      App.compute_total_quantity (.obj rkvs) days_arr = App.sum_booked_days dje) ∧
    (∀ (rkvs : List (String × JE)) (days_arr : List DayEntry),
      (lookupKey rkvs "days" = none ∨
        ∃ dje, lookupKey rkvs "days" = some dje ∧ dje.truthy = false) →
      App.compute_total_quantity (.obj rkvs) days_arr = App.sum_local_days days_arr) ∧
    (∀ (req : App.Request) (b : Workday.Backend) (tok : String)
        (kvs : List (String × JE)) (s e : String) (ds de : Date) (tid : JE)
        (ctx : Workday.WorkdayUserContext) (st1 : Workday.ClientSt)
        (rkvs : List (String × JE)) (days_arr : List DayEntry) (total : Dec),
      App._extract_bearer_token req = some tok → tok ≠ "" →
      req.body = .ok (.obj kvs) →
      lookupKey kvs "startDate" = some (.str s) →
      lookupKey kvs "endDate" = some (.str e) →
      lookupKey kvs "timeOffTypeId" = some tid → tid.truthy = true →
      parseDate s = some ds → parseDate e = some de →
      _create_days_array (.str s) (.str e)
        (pyStr ((lookupKey kvs "quantity").getD (.str "8")))
        ((lookupKey kvs "unit").getD (.str "Hours"))
        ((lookupKey kvs "reason").getD (.str "Time off request")) tid = .ok days_arr →
      Workday.get_user_context b Workday.initSt = (.ok ctx, st1, [.workerSearch]) →
      b.requestTimeOff = .ok (.obj rkvs) →
      lookupKey rkvs "businessProcessParameters" = none →
      App.compute_total_quantity (.obj rkvs) days_arr = .ok total →
      App.book_leave req b =
        (⟨200, .obj [("success", .bool true),
          ("message", .str "Time off request submitted successfully"),
          ("bookingDetails", .obj [("businessProcess", .null), ("status", .null),
            ("transactionStatus", .null), ("daysBooked", .num ⟨days_arr.length, 0⟩),
            ("totalQuantity", .num total)]),
          ("workdayResponse", .obj rkvs)]⟩,
         [.workerSearch, .requestTimeOff])) := by
  refine ⟨?_, ?_, ?_, ?_, ?_, ?_⟩
  · intro l hobj
    show (pyIter (.arr l)).bind _ = _
    rw [show pyIter (.arr l) = .ok l from rfl]
    exact foldlM_booked_all_obj l hobj ⟨0, 0⟩
  · intro days hall
    exact foldlM_local_all_parse days hall ⟨0, 0⟩
  · intro pre d post hpre hbad
    exact foldlM_local_first_bad pre d post hpre hbad ⟨0, 0⟩
  · intro rkvs days_arr dje hdje htr
    unfold App.compute_total_quantity
    dsimp only
    rw [hdje]
    dsimp only [Option.getD_some]
    rw [htr]
    rfl
  · intro rkvs days_arr hcase
    unfold App.compute_total_quantity
    dsimp only
    rcases hcase with hnone | ⟨dje, hsome, hfal⟩
    · rw [hnone]
      rfl
    · rw [hsome]
      dsimp only [Option.getD_some]
      rw [hfal]
      rfl
  · intro req b tok kvs s e ds de tid ctx st1 rkvs days_arr total
    intro htok htok2 hbody hs he htid htidT hps hpe hda hguc hreq hbpp htotal
    have hs0 : s ≠ "" := parseDate_some_ne_empty hps
    have he0 : e ≠ "" := parseDate_some_ne_empty hpe
    unfold App.book_leave App._handle_request
    rw [htok]
    dsimp only
    rw [if_neg htok2]
    unfold App.book_leave_handler
    rw [hbody]
    dsimp only
    simp only [pyGet, pyGetD, hs, he, htid, Option.getD_some]
    rw [show (!(JE.str s).truthy || !(JE.str e).truthy || !tid.truthy) = false by
      rw [htidT]; simp [JE.truthy, hs0, he0]]
    simp only [Bool.false_eq_true, if_false]
    rw [hda]
    dsimp only
    rw [hguc]
    dsimp only
    rw [hreq]
    rw [show Workday.request_time_off (.ok (.obj rkvs)) = .ok (.obj rkvs) from rfl]
    dsimp only
    rw [htotal]
    dsimp only
    simp only [pyGet, pyGetD, hbpp, Option.getD_none, except_bind_ok]
    rfl

/-- Witness for amended C3: a two-day echoed list with one unparsable entry
sums to 8 (the bad entry skipped); the local fallback over entries `"4"` and
`"4"` sums to 8; branch selection picks the echoed list when present and
truthy. -/
theorem book_leave_total_quantity_amended_witness :
    App.sum_booked_days (.arr [.obj [("dailyQuantity", .str "8")],
        .obj [("dailyQuantity", .str "abc")]]) = .ok ⟨8, 0⟩ ∧
    App.sum_local_days [⟨"d", "s", "e", "4", .null, .null⟩,
        ⟨"d", "s", "e", "4", .null, .null⟩] = .ok ⟨8, 0⟩ ∧
    App.sum_local_days [⟨"d", "s", "e", "abc", .null, .null⟩] =
      .error (.valueError "could not convert string to float: \x27abc\x27") ∧
    App.compute_total_quantity (.obj [("days", .arr [.obj []])]) [] =
      App.sum_booked_days (.arr [.obj []]) := by
  have h := book_leave_total_quantity_amended
  refine ⟨?_, ?_, ?_, ?_⟩
  · have h1 := h.1 [.obj [("dailyQuantity", .str "8")], .obj [("dailyQuantity", .str "abc")]]
      (by intro x hx; fin_cases hx <;> rfl)
    rw [h1]
    rfl
  · have h2 := h.2.1 [⟨"d", "s", "e", "4", .null, .null⟩, ⟨"d", "s", "e", "4", .null, .null⟩]
      (by intro d hd; fin_cases hd <;> rfl)
    rw [h2]
    rfl
  · have h3 := h.2.2.1 [] ⟨"d", "s", "e", "abc", .null, .null⟩ []
      (by intro x hx; exact absurd hx (List.not_mem_nil x)) rfl
    exact h3
  · exact h.2.2.2.1 [("days", .arr [.obj []])] [] (.arr [.obj []]) rfl rfl

end HRAgent

namespace HRAgent

theorem enrich_item_congr (b1 b2 : Workday.Backend) (item : JE)
    (h : ∀ cid, pyGet item "id" = .ok cid → b1.contentLessons cid = b2.contentLessons cid) :
    App.enrich_item b1 item = App.enrich_item b2 item := by
  unfold App.enrich_item
  rcases hid : pyGet item "id" with e | cid
  · rfl
  · dsimp only
    rw [h cid hid]

theorem enrich_list_congr (b1 b2 : Workday.Backend) (l : List JE)
    (h : ∀ it ∈ l, App.enrich_item b1 it = App.enrich_item b2 it) :
    App.enrich_list b1 l = App.enrich_list b2 l := by
  induction l with
  | nil => rfl
  | cons x xs ih =>
    unfold App.enrich_list
    rw [h x (List.mem_cons_self x xs)]
    have hxs := ih (fun it hit => h it (List.mem_cons_of_mem x hit))
    rcases App.enrich_item b2 x with ⟨r, cs⟩
    cases r with
    | error e => rfl
    | ok v =>
      dsimp only
      rw [hxs]

theorem enrich_list_cons (b : Workday.Backend) (x : JE) (xs : List JE) :
    App.enrich_list b (x :: xs) =
      (match App.enrich_item b x with
       | (.error e, cs) => (.error e, cs)
       | (.ok r, cs) =>
         match App.enrich_list b xs with
         | (.error e, cs2) => (.error e, cs ++ cs2)
         | (.ok rs, cs2) => (.ok (r :: rs), cs ++ cs2)) := rfl

theorem enrich_list_append (b : Workday.Backend) (l1 l2 : List JE) :
    App.enrich_list b (l1 ++ l2) =
      (match App.enrich_list b l1 with
       | (.error e, c1) => (.error e, c1)
       | (.ok o1, c1) =>
         match App.enrich_list b l2 with
         | (.error e, c2) => (.error e, c1 ++ c2)
         | (.ok o2, c2) => (.ok (o1 ++ o2), c1 ++ c2)) := by
  induction l1 with
  | nil =>
    show App.enrich_list b l2 = _
    rcases App.enrich_list b l2 with ⟨r, c2⟩
    cases r <;> rfl
  | cons x xs ih =>
    rw [List.cons_append, enrich_list_cons, enrich_list_cons, ih]
    rcases App.enrich_item b x with ⟨r, cs⟩
    cases r with
    | error e => rfl
    | ok v =>
      dsimp only
      rcases App.enrich_list b xs with ⟨r1, c1⟩
      cases r1 with
      | error e => rfl
      | ok o1 =>
        dsimp only
        rcases App.enrich_list b l2 with ⟨r2, c2⟩
        cases r2 with
        | error e => simp
        | ok o2 => simp

theorem enrich_item_failed_fetch (b : Workday.Backend) (item idk : JE)
    (w : WorkdayErr) (fk : JE)
    (hid : pyGet item "id" = .ok idk) (hfail : b.contentLessons idk = .error w)
    (hflat : App._flatten_content item [] = .ok fk) :
    App.enrich_item b item = (.ok fk, [.contentLessons idk]) := by
  unfold App.enrich_item
  rw [hid]
  dsimp only
  rw [hfail]
  rw [show Workday.get_content_lessons (.error w) = .error (.workday w) from rfl]
  dsimp only
  rw [show ((do
      let lr ← (Except.ok (JE.arr []) : Except PyErr JE)
      let ls ← pyIter lr
      let flat ← ls.mapM App._flatten_lesson
      App._flatten_content item flat) : Except PyErr JE) =
    App._flatten_content item [] from rfl]
  rw [hflat]

theorem enrich_item_ok_fetch (b : Workday.Backend) (item idk : JE)
    (hid : pyGet item "id" = .ok idk) :
    App.enrich_item b item =
      ((do
        let lr ← (match Workday.get_content_lessons (b.contentLessons idk) with
          | .error (.workday _) => (.ok (.arr []) : Except PyErr JE)
          | other => other)
        let ls ← pyIter lr
        let flat ← ls.mapM App._flatten_lesson
        App._flatten_content item flat), [.contentLessons idk]) := by
  unfold App.enrich_item
  rw [hid]

end HRAgent

namespace HRAgent

theorem search_route_ok (req : App.Request) (b : Workday.Backend) (tok : String)
    (spkvs : List (String × JE)) (items out : List JE) (calls : List Workday.Call)
    (htok : App._extract_bearer_token req = some tok) (htok2 : tok ≠ "")
    (hb : b.searchContent = .ok (.obj spkvs))
    (hdata : lookupKey spkvs "data" = some (.arr items))
    (henr : App.enrich_list b items = (.ok out, calls)) :
    App.search_learning_content req b =
      (⟨200, .obj [("success", .bool true), ("content", .arr out),
        ("total", .num ⟨out.length, 0⟩)]⟩, .searchContent :: calls) := by
  unfold App.search_learning_content App._handle_request
  rw [htok]
  dsimp only
  rw [if_neg htok2]
  unfold App.search_learning_content_handler
  rw [hb]
  rw [show Workday.search_learning_content (.ok (.obj spkvs)) = .ok (.obj spkvs) from rfl]
  dsimp only
  simp only [pyGetD, hdata, Option.getD_some]
  rw [show pyIter (.arr items) = .ok items from rfl]
  dsimp only
  rw [henr]

/-- C8: in Search Learning Content, when the per-item lessons fetch fails
with a `WorkdayError` for exactly one content item, that item appears in the
output flattened with an empty lessons list, every other item's output and
calls are identical to a run against a backend where that fetch succeeds,
and the operation still returns a 200 envelope with `success: true`; the
initial content-search call itself enjoys no such isolation — its failure
fails the whole operation with the backend-error envelope. -/
theorem search_learning_content_isolation :
    (∀ (req : App.Request) (b1 b2 : Workday.Backend) (tok : String)
        (spkvs : List (String × JE)) (pre post : List JE) (itk idk : JE)
        (w : WorkdayErr) (outPre outPost : List JE)
        (cPre cPost : List Workday.Call) (fk fk2 : JE) (ck2 : List Workday.Call),
      App._extract_bearer_token req = some tok → tok ≠ "" →
      b1.searchContent = .ok (.obj spkvs) → b2.searchContent = .ok (.obj spkvs) →
      lookupKey spkvs "data" = some (.arr (pre ++ itk :: post)) →
      pyGet itk "id" = .ok idk →
      b1.contentLessons idk = .error w →
      (∀ it ∈ pre ++ post, ∀ i, pyGet it "id" = .ok i →
        b1.contentLessons i = b2.contentLessons i) →
      App.enrich_list b1 pre = (.ok outPre, cPre) →
      App.enrich_list b1 post = (.ok outPost, cPost) →
      App._flatten_content itk [] = .ok fk →
      App.enrich_item b2 itk = (.ok fk2, ck2) →
      App.search_learning_content req b1 =
        (⟨200, .obj [("success", .bool true),
          ("content", .arr (outPre ++ fk :: outPost)),
          ("total", .num ⟨(outPre ++ fk :: outPost).length, 0⟩)]⟩,
         .searchContent :: (cPre ++ ([.contentLessons idk] ++ cPost))) ∧
      App.search_learning_content req b2 =
        (⟨200, .obj [("success", .bool true),
          ("content", .arr (outPre ++ fk2 :: outPost)),
          ("total", .num ⟨(outPre ++ fk2 :: outPost).length, 0⟩)]⟩,
         .searchContent :: (cPre ++ (ck2 ++ cPost)))) ∧
    (∀ (req : App.Request) (b : Workday.Backend) (tok : String) (w : WorkdayErr),
      App._extract_bearer_token req = some tok → tok ≠ "" →
      b.searchContent = .error w →
      App.search_learning_content req b = (App.workdayErrorResponse w, [.searchContent])) := by
  constructor
  · intro req b1 b2 tok spkvs pre post itk idk w outPre outPost cPre cPost fk fk2 ck2
    intro htok htok2 hb1 hb2 hdata hid hfail hagree hpre hpost hflat hk2
    have hpreagree : ∀ it ∈ pre, App.enrich_item b1 it = App.enrich_item b2 it :=
      fun it hit => enrich_item_congr b1 b2 it
        (fun cid hcid => hagree it (List.mem_append_left post hit) cid hcid)
    have hpostagree : ∀ it ∈ post, App.enrich_item b1 it = App.enrich_item b2 it :=
      fun it hit => enrich_item_congr b1 b2 it
        (fun cid hcid => hagree it (List.mem_append_right pre hit) cid hcid)
    have hpre2 : App.enrich_list b2 pre = (.ok outPre, cPre) :=
      (enrich_list_congr b1 b2 pre hpreagree).symm.trans hpre
    have hpost2 : App.enrich_list b2 post = (.ok outPost, cPost) :=
      (enrich_list_congr b1 b2 post hpostagree).symm.trans hpost
    have hmid1 : App.enrich_list b1 (itk :: post) =
        (.ok (fk :: outPost), [.contentLessons idk] ++ cPost) := by
      rw [enrich_list_cons, enrich_item_failed_fetch b1 itk idk w fk hid hfail hflat]
      dsimp only
      rw [hpost]
    have hall1 : App.enrich_list b1 (pre ++ itk :: post) =
        (.ok (outPre ++ fk :: outPost), cPre ++ ([.contentLessons idk] ++ cPost)) := by
      rw [enrich_list_append, hpre]
      dsimp only
      rw [hmid1]
    have hmid2 : App.enrich_list b2 (itk :: post) = (.ok (fk2 :: outPost), ck2 ++ cPost) := by
      rw [enrich_list_cons, hk2]
      dsimp only
      rw [hpost2]
    have hall2 : App.enrich_list b2 (pre ++ itk :: post) =
        (.ok (outPre ++ fk2 :: outPost), cPre ++ (ck2 ++ cPost)) := by
      rw [enrich_list_append, hpre2]
      dsimp only
      rw [hmid2]
    exact ⟨search_route_ok req b1 tok spkvs _ _ _ htok htok2 hb1 hdata hall1,
      search_route_ok req b2 tok spkvs _ _ _ htok htok2 hb2 hdata hall2⟩
  · intro req b tok w htok htok2 hb
    unfold App.search_learning_content App._handle_request
    rw [htok]
    dsimp only
    rw [if_neg htok2]
    unfold App.search_learning_content_handler
    rw [hb]
    rfl

/-- The concrete request and backends of the C8 witness: one content item
whose lessons fetch fails under `searchB1W` and succeeds under
`searchB2W`. -/
def searchReqW : App.Request := ⟨[("Authorization", "Bearer tok")], .ok .null⟩

def searchItemW : JE := .obj [("id", .str "C1")]

def searchB1W : Workday.Backend :=
  { sampleBackend with
    searchContent := .ok (.obj [("data", .arr [searchItemW])])
    contentLessons := fun _ => .error ⟨"Workday request failed (500)", some 500, .null⟩ }

def searchB2W : Workday.Backend :=
  { searchB1W with contentLessons := fun _ => .ok (.obj [("data", .arr [])]) }

/-- Witness for C8: with the failing lessons backend the route still answers
200 having issued the search call and the one lessons call; with the
succeeding backend it also answers 200. -/
theorem search_learning_content_isolation_witness :
    (App.search_learning_content searchReqW searchB1W).1.status = 200 ∧
    (App.search_learning_content searchReqW searchB1W).2 =
      [.searchContent, .contentLessons (.str "C1")] ∧
    (App.search_learning_content searchReqW searchB2W).1.status = 200 := by
  have h := search_learning_content_isolation.1 searchReqW searchB1W searchB2W "tok"
    [("data", .arr [searchItemW])] [] [] searchItemW (.str "C1")
    ⟨"Workday request failed (500)", some 500, .null⟩ [] [] [] [] _ _ _
    rfl (by decide) rfl rfl rfl rfl rfl
    (fun it hit => absurd hit (List.not_mem_nil it)) rfl rfl rfl rfl
  refine ⟨?_, ?_, ?_⟩
  · rw [h.1]
  · rw [h.1]
    rfl
  · rw [h.2]

end HRAgent
